import Mathlib

/-!
Game-theory engine (`src/app/src/utils/gameTheory.js`): shallow embedding and verified
properties.

Conventions of the embedding.

* JavaScript numbers are modelled by exact rationals `ℚ` (no rounding, no NaN).  The running
  maxima that the source initialises with `-Infinity` are `Option ℚ`, `none` standing for
  `-Infinity`.  The one exception is the loop variable `m` of `detectEquilibriumShift`, which
  the source accumulates by `m += 0.05`: it is modelled by the double it holds (a rational),
  each addition rounded to the nearest double, because the steps the loop visits depend on
  that rounding.
* The three strategy keys `'HD'`, `'MD'`, `'LD'` are the constructors of `Strategy`; the
  strategy fields of a dataset row range over these three keys.
* A payoff matrix is the nested object `matrix[amz][flip]`; a lookup yields a cell or
  `undefined`, modelled by `Option Cell`.  The two levels are flattened: a missing inner object
  and a missing cell both make the read of a profit field throw a `TypeError`.  Functions that
  can throw return `Option`, `none` standing for the thrown error.
* Dataset rows are the parsed records; their numeric fields are the values `parseFloat`
  yields, except `Amazon_Ad_Spend`, whose fallback `|| 0` is kept.
* `forEach` loops are left folds over `STRATEGIES` (or over the rows), in source order.
-/

namespace GameTheory

/-! ## Data model -/

/-- The strategy keys of `STRATEGIES = ['HD', 'MD', 'LD']`. -/
inductive Strategy where
  | HD
  | MD
  | LD
deriving DecidableEq, Repr, Fintype

/-- The constant `STRATEGIES`. -/
def STRATEGIES : List Strategy := [Strategy.HD, Strategy.MD, Strategy.LD]

/-- One matrix cell `{ amazonProfit, flipkartProfit }`. -/
structure Cell where
  amazonProfit : ℚ
  flipkartProfit : ℚ
deriving DecidableEq, Repr

/-- The object `matrix`: `matrix a b` is `matrix[a][b]`, `none` when the lookup is `undefined`. -/
abbrev Matrix := Strategy → Strategy → Option Cell

/-- The matrix all of whose nine cells are present, given cell by cell. -/
def Matrix.full (cells : Strategy → Strategy → Cell) : Matrix :=
  fun a b => some (cells a b)

/-- The object `{}`. -/
def Matrix.empty : Matrix := fun _ _ => none

/-- One parsed dataset row.  `Amazon_Ad_Spend` is `none` when `parseFloat` yields NaN (the
source then substitutes `0`). -/
structure Row where
  Festival_Year : String
  Amazon_Strategy : Strategy
  Flipkart_Strategy : Strategy
  Market_Demand : String
  Demand_Probability : ℚ
  Amazon_Profit : ℚ
  Flipkart_Profit : ℚ
  Amazon_Ad_Spend : Option ℚ
deriving DecidableEq, Repr

/-- An equilibrium entry `{ amazon, flipkart }`. -/
structure StrategyPair where
  amazon : Strategy
  flipkart : Strategy
deriving DecidableEq, Repr

/-- The object returned by `analyzeGame`.  `amazonBestResponses` is keyed by the Flipkart
strategy, `flipkartBestResponses` by the Amazon strategy. -/
structure Analysis where
  nashEquilibria : List StrategyPair
  amazonDominant : Option Strategy
  flipkartDominant : Option Strategy
  amazonBestResponses : Strategy → List Strategy
  flipkartBestResponses : Strategy → List Strategy

/-! ## `processDataForYear` -/

/-- Source `getYearMultiplier`. -/
def getYearMultiplier (year : String) : ℚ :=
  if year = "2021" then 1
  else if year = "2022" then 115 / 100
  else if year = "2023" then 130 / 100
  else if year = "2024" then 90 / 100
  else if year = "2025" then 60 / 100
  else 1

/-- Source `adSpendScale = year === '2025' ? 1.5 : 1.0`. -/
def adSpendScale (year : String) : ℚ :=
  if year = "2025" then 15 / 10 else 1

/-- Source `extraAdSpend = (parseFloat(row.Amazon_Ad_Spend) || 0) * adSpendScale`. -/
def extraAdSpend (year : String) (row : Row) : ℚ :=
  (row.Amazon_Ad_Spend.getD 0) * adSpendScale year

/-- The value of `adjustedAmzProfit` at the end of one loop body of `processDataForYear`
(source lines 49-68). -/
def adjustedAmzProfit (year : String) (adMultiplier : ℚ) (row : Row) : ℚ :=
  let baseAmzProfit := row.Amazon_Profit * getYearMultiplier year
  let adjusted0 := baseAmzProfit - (extraAdSpend year row * 1000 * adMultiplier)
  let adjusted1 :=
    if adMultiplier > 12 / 10 ∧ row.Amazon_Strategy = Strategy.HD then adjusted0 * (4 / 10)
    else adjusted0
  if year = "2025" ∧ row.Amazon_Strategy = Strategy.HD then adjusted1 * (5 / 10)
  else adjusted1

/-- The value of `baseFlipProfit` after scaling (source lines 50, 55). -/
def baseFlipProfit (year : String) (row : Row) : ℚ :=
  row.Flipkart_Profit * getYearMultiplier year

/-- One iteration of the `forEach` of `processDataForYear`: the cell of the row's strategy
pair is created as the zero cell when absent, then both profits are accumulated. -/
def processRow (year : String) (adMultiplier : ℚ) (matrix : Matrix) (row : Row) : Matrix :=
  fun a b =>
    if a = row.Amazon_Strategy ∧ b = row.Flipkart_Strategy then
      let cell := (matrix a b).getD { amazonProfit := 0, flipkartProfit := 0 }
      some { amazonProfit :=
               cell.amazonProfit + adjustedAmzProfit year adMultiplier row * row.Demand_Probability
             flipkartProfit :=
               cell.flipkartProfit + baseFlipProfit year row * row.Demand_Probability }
    else matrix a b

/-- Source `processDataForYear(filteredData, adMultiplier)`.  The year is read from the first
row only. -/
def processDataForYear (filteredData : List Row) (adMultiplier : ℚ) : Matrix :=
  match filteredData with
  | [] => Matrix.empty
  | first :: _ =>
    filteredData.foldl (processRow first.Festival_Year adMultiplier) Matrix.empty

/-! ## `analyzeGame` -/

/-- One iteration of the inner running-maximum loop: `st.1` is `maxProfit`, `st.2` is
`responses`. -/
def scanStep (profit : ℚ) (s : Strategy) (st : Option ℚ × List Strategy) :
    Option ℚ × List Strategy :=
  match st.1 with
  | none => (some profit, [s])
  | some maxProfit =>
    if profit > maxProfit then (some profit, [s])
    else if profit = maxProfit then (some maxProfit, st.2 ++ [s])
    else st

/-- The inner loop of a best-response computation: `profitOf s` is the cell field read for
own strategy `s` (`none` when the cell is missing, which throws). -/
def bestResponseScan (profitOf : Strategy → Option ℚ) : Option (List Strategy) :=
  (STRATEGIES.foldlM
    (fun st s => (profitOf s).map (fun profit => scanStep profit s st))
    ((none, []) : Option ℚ × List Strategy)).map Prod.snd

/-- An outer `forEach` that fills an object keyed by the three strategies, in the order
HD, MD, LD. -/
def forEachStrategy {α : Type} (f : Strategy → Option α) : Option (Strategy → α) := do
  let hd ← f Strategy.HD
  let md ← f Strategy.MD
  let ld ← f Strategy.LD
  pure (fun s => match s with
    | Strategy.HD => hd
    | Strategy.MD => md
    | Strategy.LD => ld)

/-- Step 2 of `analyzeGame`: the double loop pushing the cells that lie in both best-response
lists. -/
def findNash (amazonBestResponses flipkartBestResponses : Strategy → List Strategy) :
    List StrategyPair :=
  STRATEGIES.foldl
    (fun acc amz =>
      STRATEGIES.foldl
        (fun acc flip =>
          if (amazonBestResponses flip).contains amz && (flipkartBestResponses amz).contains flip
          then acc ++ [{ amazon := amz, flipkart := flip }]
          else acc)
        acc)
    []

/-- Step 3 of `analyzeGame` for one player: `payoff cand opp` is the candidate's profit
against opponent strategy `opp`.  Returns the final value of the `...Dominant` variable. -/
def dominantScan (payoff : Strategy → Strategy → Option ℚ) : Option (Option Strategy) :=
  STRATEGIES.foldlM
    (fun dominant candidate => do
      let isDominant ← STRATEGIES.foldlM
        (fun isDominant other =>
          if candidate = other then pure isDominant
          else STRATEGIES.foldlM
            (fun isDominant opp => do
              let x ← payoff candidate opp
              let y ← payoff other opp
              pure (if x < y then false else isDominant))
            isDominant)
        true
      pure (if isDominant then some candidate else dominant))
    none

/-- Source `analyzeGame(matrix)`; `none` when a cell lookup throws. -/
def analyzeGame (matrix : Matrix) : Option Analysis := do
  let flipkartBestResponses ← forEachStrategy (fun amz =>
    bestResponseScan (fun flip => (matrix amz flip).map Cell.flipkartProfit))
  let amazonBestResponses ← forEachStrategy (fun flip =>
    bestResponseScan (fun amz => (matrix amz flip).map Cell.amazonProfit))
  let nashEquilibria := findNash amazonBestResponses flipkartBestResponses
  let amazonDominant ← dominantScan (fun cand flip => (matrix cand flip).map Cell.amazonProfit)
  let flipkartDominant ← dominantScan (fun cand amz => (matrix amz cand).map Cell.flipkartProfit)
  pure { nashEquilibria := nashEquilibria
         amazonDominant := amazonDominant
         flipkartDominant := flipkartDominant
         amazonBestResponses := amazonBestResponses
         flipkartBestResponses := flipkartBestResponses }

/-! ## `classifyGameStructure` -/

/-- One iteration of the social-optimum loop: `st.1` is `maxJoint`, `st.2` is
`socialOptimum`. -/
def jointStep (joint : ℚ) (p : StrategyPair) (st : Option ℚ × Option StrategyPair) :
    Option ℚ × Option StrategyPair :=
  match st.1 with
  | none => (some joint, some p)
  | some maxJoint => if joint > maxJoint then (some joint, some p) else st

/-- The double loop of `classifyGameStructure` computing `socialOptimum`. -/
def socialOptimumScan (matrix : Matrix) : Option (Option StrategyPair) :=
  (STRATEGIES.foldlM
    (fun st amz =>
      STRATEGIES.foldlM
        (fun st flip =>
          (matrix amz flip).map (fun cell =>
            jointStep (cell.amazonProfit + cell.flipkartProfit)
              { amazon := amz, flipkart := flip } st))
        st)
    ((none, none) : Option ℚ × Option StrategyPair)).map Prod.snd

/-- Source `classifyGameStructure(matrix, analysis)`.  A missing argument (`null` or
`undefined`) is `none`; the result is `none` when a cell lookup throws. -/
def classifyGameStructure (matrix : Option Matrix) (analysis : Option Analysis) :
    Option String :=
  match matrix, analysis with
  | none, _ => some "Undetermined"
  | _, none => some "Undetermined"
  | some matrix, some analysis =>
    match analysis.nashEquilibria with
    | [] => some "Competitive Margin Game"
    | primaryNash :: _ => do
      let socialOptimum ← socialOptimumScan matrix
      let isNashSocialOptimum :=
        match socialOptimum with
        | none => false
        | some so =>
          decide (primaryNash.amazon = so.amazon) && decide (primaryNash.flipkart = so.flipkart)
      let hasDominantStrategies :=
        analysis.amazonDominant.isSome && analysis.flipkartDominant.isSome
      if !isNashSocialOptimum && hasDominantStrategies then pure "Prisoner\x27s Dilemma"
      else if isNashSocialOptimum then pure "Coordination Game"
      else pure "Competitive Margin Game"

/-! ## Notions of the specification, used to state the properties -/

/-- The nine cells in row-major order: player-one strategy outer, player-two strategy inner. -/
def rowMajorCells : List StrategyPair :=
  [ { amazon := Strategy.HD, flipkart := Strategy.HD },
    { amazon := Strategy.HD, flipkart := Strategy.MD },
    { amazon := Strategy.HD, flipkart := Strategy.LD },
    { amazon := Strategy.MD, flipkart := Strategy.HD },
    { amazon := Strategy.MD, flipkart := Strategy.MD },
    { amazon := Strategy.MD, flipkart := Strategy.LD },
    { amazon := Strategy.LD, flipkart := Strategy.HD },
    { amazon := Strategy.LD, flipkart := Strategy.MD },
    { amazon := Strategy.LD, flipkart := Strategy.LD } ]

/-- Player one's payoff when playing `own` against player two's `opp`. -/
def amazonPayoff (cells : Strategy → Strategy → Cell) (own opp : Strategy) : ℚ :=
  (cells own opp).amazonProfit

/-- Player two's payoff when playing `own` against player one's `opp`. -/
def flipkartPayoff (cells : Strategy → Strategy → Cell) (own opp : Strategy) : ℚ :=
  (cells opp own).flipkartProfit

/-- The best-reply list as the specification words it: the own strategies, in the order
HD, MD, LD, whose payoff against `opp` is at least that of every own strategy. -/
def bestReplies (payoff : Strategy → Strategy → ℚ) (opp : Strategy) : List Strategy :=
  STRATEGIES.filter (fun s => decide (∀ t, payoff t opp ≤ payoff s opp))

/-- Weak dominance as the specification words it: `s` is at least as good as every other own
strategy `s'` against every opponent strategy `t`. -/
def IsDominant (payoff : Strategy → Strategy → ℚ) (s : Strategy) : Prop :=
  ∀ s', s' ≠ s → ∀ t, payoff s t ≥ payoff s' t

instance (payoff : Strategy → Strategy → ℚ) : DecidablePred (IsDominant payoff) :=
  fun s => inferInstanceAs (Decidable (∀ s', s' ≠ s → ∀ t, payoff s t ≥ payoff s' t))

/-- The joint profit `amazonProfit + flipkartProfit` of a cell. -/
def jointProfit (cells : Strategy → Strategy → Cell) (p : StrategyPair) : ℚ :=
  (cells p.amazon p.flipkart).amazonProfit + (cells p.amazon p.flipkart).flipkartProfit

/-- The first maximiser of `value` in the list `cells`: every earlier entry is strictly smaller,
every later entry is at most as large. -/
def IsFirstMax (value : StrategyPair → ℚ) (cells : List StrategyPair) (p : StrategyPair) :
    Prop :=
  ∃ before after, cells = before ++ p :: after ∧
    (∀ c ∈ before, value c < value p) ∧ (∀ c ∈ after, value c ≤ value p)

/-- The social optimum as the specification words it: the first cell in row-major order whose
joint profit is the maximum over the nine cells. -/
def socialOptimum (cells : Strategy → Strategy → Cell) : Option StrategyPair :=
  rowMajorCells.find? (fun c =>
    decide (∀ c' ∈ rowMajorCells, jointProfit cells c' ≤ jointProfit cells c))

/-- The strategy pair of a row equals `(a, b)`. -/
def Row.hasPair (a b : Strategy) (row : Row) : Bool :=
  decide (row.Amazon_Strategy = a) && decide (row.Flipkart_Strategy = b)

/-- The zero cell `{ amazonProfit: 0, flipkartProfit: 0 }`. -/
def zeroCell : Cell := { amazonProfit := 0, flipkartProfit := 0 }

/-- A sample observation row: period 2021, pair (HD, HD). -/
def sampleRow : Row :=
  { Festival_Year := "2021", Amazon_Strategy := Strategy.HD, Flipkart_Strategy := Strategy.HD,
    Market_Demand := "High", Demand_Probability := 1 / 2, Amazon_Profit := 1000,
    Flipkart_Profit := 800, Amazon_Ad_Spend := some 2 }

/-- A second sample row of the same period, pair (MD, HD). -/
def sampleRow2 : Row :=
  { Festival_Year := "2021", Amazon_Strategy := Strategy.MD, Flipkart_Strategy := Strategy.HD,
    Market_Demand := "Low", Demand_Probability := 1 / 4, Amazon_Profit := 600,
    Flipkart_Profit := 900, Amazon_Ad_Spend := some 1 }

/-! ## `calculateMixedStrategy` -/

/-- The object `expectedPayoffs` of a mixed-strategy result. -/
structure ExpectedPayoffs where
  amazon : ℚ
  flipkart : ℚ
deriving DecidableEq, Repr

/-- The object returned by `calculateMixedStrategy`.  A key that the returned object does not
carry is `none`.  The mixing objects `{ HD: p, MD: 1 - p, LD: 0 }` are functions of the
strategy key. -/
structure MixedStrategyResult where
  hasPureNash : Bool
  pureNashEquilibria : Option (List StrategyPair)
  amazonMixing : Option (Strategy → ℚ)
  flipkartMixing : Option (Strategy → ℚ)
  expectedPayoffs : Option ExpectedPayoffs
  support : Option (List Strategy)
  recommendation : String

/-- Source `Math.max(0, Math.min(1, x))`. -/
def clampUnit (x : ℚ) : ℚ := max 0 (min 1 x)

/-- Source `denom !== 0 ? numer / denom : 0.5`, then the clamp to `[0, 1]`. -/
def solveMix (numer denom : ℚ) : ℚ :=
  clampUnit (if denom ≠ 0 then numer / denom else 5 / 10)

/-- The part of `calculateMixedStrategy` after the early return (source lines 243-302), given
the four cells it reads: `hdhd = matrix[HD][HD]`, `mdhd = matrix[MD][HD]`,
`hdmd = matrix[HD][MD]`, `mdmd = matrix[MD][MD]`. -/
def mixedStrategyOfCells (hdhd mdhd hdmd mdmd : Cell) : MixedStrategyResult :=
  let s1 := Strategy.HD
  let s2 := Strategy.MD
  let flip_hd_when_amz_hd := hdhd.flipkartProfit
  let flip_hd_when_amz_md := mdhd.flipkartProfit
  let flip_md_when_amz_hd := hdmd.flipkartProfit
  let flip_md_when_amz_md := mdmd.flipkartProfit
  let denomAmazon :=
    flip_hd_when_amz_hd - flip_hd_when_amz_md - flip_md_when_amz_hd + flip_md_when_amz_md
  let numerAmazon := flip_md_when_amz_md - flip_hd_when_amz_md
  let amazonMixHD := solveMix numerAmazon denomAmazon
  let amz_hd_when_flip_hd := hdhd.amazonProfit
  let amz_hd_when_flip_md := hdmd.amazonProfit
  let amz_md_when_flip_hd := mdhd.amazonProfit
  let amz_md_when_flip_md := mdmd.amazonProfit
  let denomFlipkart :=
    amz_hd_when_flip_hd - amz_hd_when_flip_md - amz_md_when_flip_hd + amz_md_when_flip_md
  let numerFlipkart := amz_md_when_flip_md - amz_hd_when_flip_md
  let flipkartMixHD := solveMix numerFlipkart denomFlipkart
  let amazonExpectedPayoff :=
    amazonMixHD * flipkartMixHD * hdhd.amazonProfit +
    amazonMixHD * (1 - flipkartMixHD) * hdmd.amazonProfit +
    (1 - amazonMixHD) * flipkartMixHD * mdhd.amazonProfit +
    (1 - amazonMixHD) * (1 - flipkartMixHD) * mdmd.amazonProfit
  let flipkartExpectedPayoff :=
    amazonMixHD * flipkartMixHD * hdhd.flipkartProfit +
    amazonMixHD * (1 - flipkartMixHD) * hdmd.flipkartProfit +
    (1 - amazonMixHD) * flipkartMixHD * mdhd.flipkartProfit +
    (1 - amazonMixHD) * (1 - flipkartMixHD) * mdmd.flipkartProfit
  { hasPureNash := false
    pureNashEquilibria := none
    amazonMixing := some (fun s =>
      if s = s1 then amazonMixHD else if s = s2 then 1 - amazonMixHD else 0)
    flipkartMixing := some (fun s =>
      if s = s1 then flipkartMixHD else if s = s2 then 1 - flipkartMixHD else 0)
    expectedPayoffs :=
      some { amazon := amazonExpectedPayoff, flipkart := flipkartExpectedPayoff }
    support := some [s1, s2]
    recommendation := "No pure Nash Equilibrium. Use mixed strategy for optimal play." }

/-- Source `calculateMixedStrategy(matrix)`; `none` when a cell lookup throws. -/
def calculateMixedStrategy (matrix : Matrix) : Option MixedStrategyResult := do
  let analysis ← analyzeGame matrix
  let hasPureNash := decide (analysis.nashEquilibria.length > 0)
  if hasPureNash then
    pure { hasPureNash := true
           pureNashEquilibria := some analysis.nashEquilibria
           amazonMixing := none
           flipkartMixing := none
           expectedPayoffs := none
           support := none
           recommendation :=
             "Pure strategy Nash equilibrium exists. Mixed strategy solution not required." }
  else
    let hdhd ← matrix Strategy.HD Strategy.HD
    let mdhd ← matrix Strategy.MD Strategy.HD
    let hdmd ← matrix Strategy.HD Strategy.MD
    let mdmd ← matrix Strategy.MD Strategy.MD
    pure (mixedStrategyOfCells hdhd mdhd hdmd mdmd)

/-! ## `detectEquilibriumShift` -/

/-- The object returned by `detectEquilibriumShift` when a shift is found; the fields `from`
and `to` of the source are `fromStrategy` and `toStrategy`, and `multiplier` holds the number
that the string `m.toFixed(2)` of the source denotes. -/
structure TippingPoint where
  multiplier : ℚ
  fromStrategy : Strategy
  toStrategy : Strategy
  year : String
deriving DecidableEq, Repr

/-- The filter `String(row.Festival_Year) === String(year)`. -/
def rowsOfYear (rawData : List Row) (year : String) : List Row :=
  rawData.filter (fun row => decide (row.Festival_Year = year))

/-- The value `analysis.nashEquilibria[0]?.amazon`, `none` when it is `undefined`. -/
def primaryAmazon (analysis : Analysis) : Option Strategy :=
  analysis.nashEquilibria.head?.map StrategyPair.amazon

/-- The spacing of the doubles around `x`, for `1 ≤ x < 8`: `2^-52` on `[1, 2)`, `2^-51` on
`[2, 4)` and `2^-50` on `[4, 8)`. -/
def doubleUlp (x : ℚ) : ℚ :=
  if x < 2 then 1 / 2 ^ 52 else if x < 4 then 1 / 2 ^ 51 else 1 / 2 ^ 50

/-- The integer nearest to `q`, the even one of the two when `q` lies half-way. -/
def roundHalfEven (q : ℚ) : ℤ :=
  if q - ⌊q⌋ < 1 / 2 then ⌊q⌋
  else if 1 / 2 < q - ⌊q⌋ then ⌊q⌋ + 1
  else if ⌊q⌋ % 2 = 0 then ⌊q⌋
  else ⌊q⌋ + 1

/-- The double nearest to `x`, ties to even (the rounding of every double operation), for
`1 ≤ x < 8`.  The loop variable of `detectEquilibriumShift` starts at 1 and is only increased
from a value of at most 5, so the sums that are rounded lie in this range; an argument outside
of it is returned as it is. -/
def roundDouble (x : ℚ) : ℚ :=
  if 1 ≤ x ∧ x < 8 then roundHalfEven (x / doubleUlp x) * doubleUlp x else x

/-- The double that the literal `0.05` denotes, `0x1.999999999999ap-5`. -/
def stepLiteral : ℚ := 3602879701896397 / 2 ^ 56

/-- The update `m += 0.05` of the loop variable: the exact sum of the two doubles, rounded to
the nearest double. -/
def nextMultiplier (m : ℚ) : ℚ := roundDouble (m + stepLiteral)

/-- The number that the string `m.toFixed(2)` denotes, for `m ≥ 0`: `n / 100` for the integer
`n` with `n / 100` nearest to `m`, the larger `n` when two are equally near. -/
def toFixed2 (m : ℚ) : ℚ := ⌊m * 100 + 1 / 2⌋ / 100

/-- The loop `for (let m = ...; m <= 5.0; m += 0.05)` of `detectEquilibriumShift`, entered with
the current values of `m` and `initialNash`.  The outer `none` is a thrown error, the inner
`none` the value `null` returned after the loop.  The comparison `adMultiplier > 1.2` inside
`processDataForYear` is made with the rational `12 / 10`: no double lies between the double
that the literal `1.2` denotes and `12 / 10`, so both comparisons agree on every double. -/
def shiftLoop (yearData : List Row) (year : String) (m : ℚ) (initialNash : Option Strategy) :
    Option (Option TippingPoint) :=
  if _h : m ≤ 5 then
    match analyzeGame (processDataForYear yearData m) with
    | none => none
    | some analysis =>
      match initialNash, primaryAmazon analysis with
      | none, some currentNash => shiftLoop yearData year (nextMultiplier m) (some currentNash)
      | some initial, some currentNash =>
        if currentNash ≠ initial then
          some (some { multiplier := toFixed2 m, fromStrategy := initial,
                       toStrategy := currentNash, year := year })
        else shiftLoop yearData year (nextMultiplier m) initialNash
      | _, none => shiftLoop yearData year (nextMultiplier m) initialNash
  else some none
termination_by (⌊(5 - m) * 25⌋ + 1).toNat
decreasing_by
  all_goals
    have hstep : m + 1 / 25 ≤ nextMultiplier m := by
      unfold nextMultiplier roundDouble
      split_ifs with hr
      · have hu : 0 < doubleUlp (m + stepLiteral)
            ∧ doubleUlp (m + stepLiteral) ≤ 1 / 2 ^ 50 := by
          unfold doubleUlp
          split_ifs <;> norm_num
        have hq : (m + stepLiteral) / doubleUlp (m + stepLiteral) - 1 / 2
            ≤ roundHalfEven ((m + stepLiteral) / doubleUlp (m + stepLiteral)) := by
          unfold roundHalfEven
          split_ifs <;> push_cast <;>
            linarith [Int.floor_le ((m + stepLiteral) / doubleUlp (m + stepLiteral)),
              Int.lt_floor_add_one ((m + stepLiteral) / doubleUlp (m + stepLiteral))]
        have hmul := mul_le_mul_of_nonneg_right hq hu.1.le
        have hcancel : (m + stepLiteral) / doubleUlp (m + stepLiteral)
            * doubleUlp (m + stepLiteral) = m + stepLiteral :=
          div_mul_cancel₀ _ (ne_of_gt hu.1)
        have hc : (1 : ℚ) / 25 + 1 / 2 ^ 51 ≤ stepLiteral := by
          unfold stepLiteral
          norm_num
        rw [sub_mul, hcancel] at hmul
        linarith [hu.2, hc, hmul]
      · unfold stepLiteral
        norm_num
    have h2 : (0 : ℤ) ≤ ⌊(5 - m) * 25⌋ := Int.floor_nonneg.mpr (by linarith)
    have h3 : ⌊(5 - nextMultiplier m) * 25⌋ ≤ ⌊(5 - m) * 25 - 1⌋ :=
      Int.floor_mono (by linarith)
    rw [Int.floor_sub_one] at h3
    omega

/-- Source `detectEquilibriumShift(rawData, year)`. -/
def detectEquilibriumShift (rawData : List Row) (year : String) :
    Option (Option TippingPoint) :=
  let yearData := rowsOfYear rawData year
  if yearData.length = 0 then some none
  else shiftLoop yearData year 1 none

/-! ## `getPerturbedData` -/

/-- The body of the `map` that builds `perturbedRows`: the row with its probability
perturbed. -/
def perturbRow (direction : ℤ) (row : Row) : Row :=
  let prob0 := row.Demand_Probability
  let demand := row.Market_Demand
  let prob2 :=
    if direction = 1 then
      let prob1 := if demand = "High" then prob0 * (105 / 100) else prob0
      if demand = "Low" then prob1 * (95 / 100) else prob1
    else
      let prob1 := if demand = "High" then prob0 * (95 / 100) else prob0
      if demand = "Low" then prob1 * (105 / 100) else prob1
  { row with Demand_Probability := prob2 }

/-- The list `perturbedRows` of `getPerturbedData`. -/
def perturbedRows (rawData : List Row) (year : String) (direction : ℤ) : List Row :=
  (rowsOfYear rawData year).map (perturbRow direction)

/-- The list `pairs`: the distinct strategy pairs of the rows, in order of first occurrence
(the insertion order of the `Set`). -/
def distinctPairs (rows : List Row) : List (Strategy × Strategy) :=
  rows.foldl
    (fun acc r =>
      if acc.contains (r.Amazon_Strategy, r.Flipkart_Strategy) then acc
      else acc ++ [(r.Amazon_Strategy, r.Flipkart_Strategy)])
    []

/-- The rows pushed for one pair: the rows of the pair with their probability divided by the
total of the group.  When the total is zero the quotient is not a finite number in the
source; the result is then `none`, outside the rational model. -/
def normalizePair (rows : List Row) (pair : Strategy × Strategy) : Option (List Row) :=
  let pairRows := rows.filter (Row.hasPair pair.1 pair.2)
  let totalProb : ℚ := pairRows.foldl (fun sum r => sum + r.Demand_Probability) 0
  if totalProb = 0 then none
  else some (pairRows.map (fun r =>
    { r with Demand_Probability := r.Demand_Probability / totalProb }))

/-- The list `normalizedData` of `getPerturbedData`, `none` when some group has total zero. -/
def normalizedData (rows : List Row) : Option (List Row) :=
  (distinctPairs rows).foldlM
    (fun acc pair => (normalizePair rows pair).map (fun pushed => acc ++ pushed))
    []

/-- Source `getPerturbedData(rawData, year, adMultiplier, direction)`.  The inner `none` is the
returned `null`; the outer `none` marks a division by a zero total. -/
def getPerturbedData (rawData : List Row) (year : String) (adMultiplier : ℚ)
    (direction : ℤ) : Option (Option Matrix) :=
  if (rowsOfYear rawData year).length = 0 then some none
  else
    (normalizedData (perturbedRows rawData year direction)).map
      (fun rows => some (processDataForYear rows adMultiplier))

/-! ## Sample inputs -/

/-- The Scenario A matrix of the specification; the five cells involving LD are zero. -/
def scenarioA : Strategy → Strategy → Cell
  | Strategy.HD, Strategy.HD => { amazonProfit := -5000000, flipkartProfit := -5000000 }
  | Strategy.MD, Strategy.MD => { amazonProfit := 8000000, flipkartProfit := 8000000 }
  | Strategy.HD, Strategy.MD => { amazonProfit := -2000000, flipkartProfit := 6000000 }
  | Strategy.MD, Strategy.HD => { amazonProfit := 6000000, flipkartProfit := -2000000 }
  | _, _ => { amazonProfit := 0, flipkartProfit := 0 }

/-- A matrix without pure equilibrium: matching pennies on HD and MD, LD strictly worse for
both players. -/
def pennies : Strategy → Strategy → Cell
  | Strategy.HD, Strategy.HD => { amazonProfit := 1, flipkartProfit := -1 }
  | Strategy.HD, Strategy.MD => { amazonProfit := -1, flipkartProfit := 1 }
  | Strategy.MD, Strategy.HD => { amazonProfit := -1, flipkartProfit := 1 }
  | Strategy.MD, Strategy.MD => { amazonProfit := 1, flipkartProfit := -1 }
  | Strategy.LD, Strategy.LD => { amazonProfit := -5, flipkartProfit := -5 }
  | Strategy.LD, _ => { amazonProfit := -5, flipkartProfit := 0 }
  | _, Strategy.LD => { amazonProfit := 0, flipkartProfit := -5 }

/-- Nine rows of period 2021, one per strategy pair, all with probability 1: player one earns
`1040 - 1000 m` with HD, `20` with MD and `0` with LD, whatever player two plays. -/
def shiftData : List Row :=
  [ { Festival_Year := "2021", Amazon_Strategy := Strategy.HD, Flipkart_Strategy := Strategy.HD,
      Market_Demand := "High", Demand_Probability := 1, Amazon_Profit := 1040,
      Flipkart_Profit := 10, Amazon_Ad_Spend := some 1 },
    { Festival_Year := "2021", Amazon_Strategy := Strategy.HD, Flipkart_Strategy := Strategy.MD,
      Market_Demand := "High", Demand_Probability := 1, Amazon_Profit := 1040,
      Flipkart_Profit := 20, Amazon_Ad_Spend := some 1 },
    { Festival_Year := "2021", Amazon_Strategy := Strategy.HD, Flipkart_Strategy := Strategy.LD,
      Market_Demand := "High", Demand_Probability := 1, Amazon_Profit := 1040,
      Flipkart_Profit := 0, Amazon_Ad_Spend := some 1 },
    { Festival_Year := "2021", Amazon_Strategy := Strategy.MD, Flipkart_Strategy := Strategy.HD,
      Market_Demand := "High", Demand_Probability := 1, Amazon_Profit := 20,
      Flipkart_Profit := 10, Amazon_Ad_Spend := some 0 },
    { Festival_Year := "2021", Amazon_Strategy := Strategy.MD, Flipkart_Strategy := Strategy.MD,
      Market_Demand := "High", Demand_Probability := 1, Amazon_Profit := 20,
      Flipkart_Profit := 20, Amazon_Ad_Spend := some 0 },
    { Festival_Year := "2021", Amazon_Strategy := Strategy.MD, Flipkart_Strategy := Strategy.LD,
      Market_Demand := "High", Demand_Probability := 1, Amazon_Profit := 20,
      Flipkart_Profit := 0, Amazon_Ad_Spend := some 0 },
    { Festival_Year := "2021", Amazon_Strategy := Strategy.LD, Flipkart_Strategy := Strategy.HD,
      Market_Demand := "High", Demand_Probability := 1, Amazon_Profit := 0,
      Flipkart_Profit := 10, Amazon_Ad_Spend := some 0 },
    { Festival_Year := "2021", Amazon_Strategy := Strategy.LD, Flipkart_Strategy := Strategy.MD,
      Market_Demand := "High", Demand_Probability := 1, Amazon_Profit := 0,
      Flipkart_Profit := 20, Amazon_Ad_Spend := some 0 },
    { Festival_Year := "2021", Amazon_Strategy := Strategy.LD, Flipkart_Strategy := Strategy.LD,
      Market_Demand := "High", Demand_Probability := 1, Amazon_Profit := 0,
      Flipkart_Profit := 0, Amazon_Ad_Spend := some 0 } ]

/-! ## Specification of the tipping-point scan -/

/-- The multiplier of step `k` in exact arithmetic: `m_k = 1 + 0.05 k`. -/
def scanMultiplier (k : ℕ) : ℚ := 1 + 5 / 100 * k

/-- The value `e_k`: player one's strategy in the first-listed Nash equilibrium of
`analyzeGame(processDataForYear(rows, m_k))`, when there is one. -/
def equilibriumAt (rows : List Row) (k : ℕ) : Option Strategy :=
  (analyzeGame (processDataForYear rows (scanMultiplier k))).bind primaryAmazon

/-- Step `k` shows a change against the baseline `e0`: `e_k` is defined and differs. -/
def differsFrom (e : ℕ → Option Strategy) (e0 : Strategy) (k : ℕ) : Bool :=
  match e k with
  | some t => decide (t ≠ e0)
  | none => false

/-- The tipping point for baseline step `k0` with baseline strategy `e0`: the least `k` with
`k0 < k ≤ 80` at which `e_k` is defined and differs from `e0`, if any. -/
def shiftAfter (e : ℕ → Option Strategy) (year : String) (k0 : ℕ) (e0 : Strategy) :
    Option TippingPoint :=
  ((List.range' (k0 + 1) (80 - k0)).find? (differsFrom e e0)).bind (fun k =>
    (e k).map (fun t =>
      { multiplier := scanMultiplier k, fromStrategy := e0, toStrategy := t, year := year }))

/-- The tipping point as the specification words it: `k0` is the least `k ≤ 80` with `e_k`
defined, and the result is the tipping point after `k0`; there is none when no `e_k` is
defined. -/
def tippingPointSpec (e : ℕ → Option Strategy) (year : String) : Option TippingPoint :=
  ((List.range 81).find? (fun k => (e k).isSome)).bind (fun k0 =>
    (e k0).bind (fun e0 => shiftAfter e year k0 e0))

/-- The cells that `processDataForYear shiftData m` holds when `m ≤ 1.2`. -/
def shiftCells (m : ℚ) : Strategy → Strategy → Cell :=
  fun a b =>
    { amazonProfit :=
        match a with
        | Strategy.HD => 1040 - 1000 * m
        | Strategy.MD => 20
        | Strategy.LD => 0
      flipkartProfit :=
        match b with
        | Strategy.HD => 10
        | Strategy.MD => 20
        | Strategy.LD => 0 }

/-! ## `getDecisionTreeData` -/

/-- One entry of `branches`. -/
structure Branch where
  demand : String
  probability : ℚ
  payoff : ℚ
deriving DecidableEq, Repr

/-- The object returned by `getDecisionTreeData`. -/
structure DecisionTreeData where
  amazonStrategy : Strategy
  flipkartStrategy : Strategy
  emv : ℚ
  branches : List Branch
  perspective : String
deriving DecidableEq, Repr

/-- The value of `profit` at the end of the `map` callback of `getDecisionTreeData` (source
lines 325-342). -/
def branchProfit (y : String) (adMultiplier : ℚ) (amzStrat : Strategy) (perspective : String)
    (row : Row) : ℚ :=
  if perspective = "Amazon" then
    let profit0 := row.Amazon_Profit * getYearMultiplier y
    let profit1 := profit0 - (extraAdSpend y row * 1000 * adMultiplier)
    let profit2 :=
      if adMultiplier > 12 / 10 ∧ amzStrat = Strategy.HD then profit1 * (4 / 10) else profit1
    if y = "2025" ∧ amzStrat = Strategy.HD then profit2 * (5 / 10) else profit2
  else row.Flipkart_Profit * getYearMultiplier y

/-- Source `getDecisionTreeData(data, year, amzStrat, flipStrat, adMultiplier, perspective)`;
`none` is the returned `null`. -/
def getDecisionTreeData (data : List Row) (year : String) (amzStrat flipStrat : Strategy)
    (adMultiplier : ℚ) (perspective : String) : Option DecisionTreeData :=
  let scenarios := data.filter (fun row =>
    decide (row.Festival_Year = year) && decide (row.Amazon_Strategy = amzStrat)
      && decide (row.Flipkart_Strategy = flipStrat))
  if scenarios.length = 0 then none
  else
    let emv : ℚ := scenarios.foldl
      (fun emv row =>
        emv + row.Demand_Probability * branchProfit year adMultiplier amzStrat perspective row)
      0
    let branches := scenarios.map (fun row =>
      { demand := row.Market_Demand
        probability := row.Demand_Probability
        payoff := branchProfit year adMultiplier amzStrat perspective row })
    some { amazonStrategy := amzStrat
           flipkartStrategy := flipStrat
           emv := emv
           branches := branches
           perspective := perspective }

/-! ## `calculateMultiYearSensitivity` -/

/-- One entry `{ year, HD, MD, LD }` of the list returned by
`calculateMultiYearSensitivity`. -/
structure SensitivityPoint where
  year : String
  HD : ℚ
  MD : ℚ
  LD : ℚ
deriving DecidableEq, Repr

/-- The lookup `point[amzStrat]`. -/
def SensitivityPoint.value (point : SensitivityPoint) (s : Strategy) : ℚ :=
  match s with
  | Strategy.HD => point.HD
  | Strategy.MD => point.MD
  | Strategy.LD => point.LD

/-- The list `[...new Set(rawData.map(row => row.Festival_Year))]`: the distinct periods in
order of first occurrence. -/
def distinctYears (rawData : List Row) : List String :=
  rawData.foldl
    (fun acc row => if acc.contains row.Festival_Year then acc else acc ++ [row.Festival_Year])
    []

/-- The value `totalEMV` of `calculateMultiYearSensitivity` for one period and one player-one
strategy (source lines 464-488); the opponent strategy is fixed to HD. -/
def sensitivityEMV (yearData : List Row) (yStr : String) (adMultiplier : ℚ)
    (amzStrat : Strategy) : ℚ :=
  let flipStrat := Strategy.HD
  let relevantRows := yearData.filter (fun row =>
    decide (row.Amazon_Strategy = amzStrat) && decide (row.Flipkart_Strategy = flipStrat))
  relevantRows.foldl
    (fun totalEMV row =>
      let profit := row.Amazon_Profit * getYearMultiplier yStr
      let adjusted0 := profit - (extraAdSpend yStr row * 1000 * adMultiplier)
      let adjusted1 :=
        if adMultiplier > 12 / 10 ∧ amzStrat = Strategy.HD then adjusted0 * (4 / 10)
        else adjusted0
      let adjusted2 :=
        if yStr = "2025" ∧ amzStrat = Strategy.HD then adjusted1 * (5 / 10) else adjusted1
      totalEMV + adjusted2 * row.Demand_Probability)
    0

/-- Source `calculateMultiYearSensitivity(rawData, adMultiplier)`.  The default `sort()` of the
period strings is the insertion sort by the order of `String`. -/
def calculateMultiYearSensitivity (rawData : List Row) (adMultiplier : ℚ) :
    List SensitivityPoint :=
  let years := (distinctYears rawData).insertionSort (fun a b => a ≤ b)
  years.map (fun year =>
    let yearData := rowsOfYear rawData year
    { year := year
      HD := sensitivityEMV yearData year adMultiplier Strategy.HD
      MD := sensitivityEMV yearData year adMultiplier Strategy.MD
      LD := sensitivityEMV yearData year adMultiplier Strategy.LD })

/-! ## The robustness test of `TheoreticalValidation` -/

/-- The call `analyzeGame(matrix)` on the value returned by `getPerturbedData`: on `null` the
first cell lookup throws. -/
def analyzeGameOrThrow (matrix : Option Matrix) : Option Analysis :=
  match matrix with
  | none => none
  | some m => analyzeGame m

/-- The `robustness` computation of `TheoreticalValidation` (source lines 38-55), for a present
`rawData`.  The inner `none` is the returned `null` (empty `year` or missing `primaryNash`), the
inner `some b` the object `{ isRobust: b }`; the outer `none` is a thrown error or a perturbed
matrix outside the rational model. -/
def robustness (rawData : List Row) (year : String) (adMultiplier : ℚ)
    (primaryNash : Option StrategyPair) : Option (Option Bool) :=
  if year = "" then some none
  else
    match primaryNash with
    | none => some none
    | some primaryNash => do
      let matrixPos ← getPerturbedData rawData year adMultiplier 1
      let matrixNeg ← getPerturbedData rawData year adMultiplier (-1)
      let analysisPos ← analyzeGameOrThrow matrixPos
      let analysisNeg ← analyzeGameOrThrow matrixNeg
      let nashPos := analysisPos.nashEquilibria.head?
      let nashNeg := analysisNeg.nashEquilibria.head?
      let isRobust :=
        (decide (nashPos.map StrategyPair.amazon = some primaryNash.amazon)
          && decide (nashPos.map StrategyPair.flipkart = some primaryNash.flipkart))
        && (decide (nashNeg.map StrategyPair.amazon = some primaryNash.amazon)
          && decide (nashNeg.map StrategyPair.flipkart = some primaryNash.flipkart))
      pure (some isRobust)

/-! ## Further notions of the specification and sample inputs -/

/-- The total of the probabilities of the rows of one strategy pair. -/
def groupTotal (rows : List Row) (pair : Strategy × Strategy) : ℚ :=
  ((rows.filter (Row.hasPair pair.1 pair.2)).map Row.Demand_Probability).sum

/-- The rows of one strategy pair with each probability divided by the total of the group. -/
def renormalizedGroup (rows : List Row) (pair : Strategy × Strategy) : List Row :=
  (rows.filter (Row.hasPair pair.1 pair.2)).map (fun r =>
    { r with Demand_Probability := r.Demand_Probability / groupTotal rows pair })

/-- Player one's expected `amazonProfit` when playing the pure strategy `s` against the mixing
`mix` of player two. -/
def amazonPayoffAgainst (cells : Strategy → Strategy → Cell) (mix : Strategy → ℚ)
    (s : Strategy) : ℚ :=
  mix Strategy.HD * (cells s Strategy.HD).amazonProfit
    + mix Strategy.MD * (cells s Strategy.MD).amazonProfit
    + mix Strategy.LD * (cells s Strategy.LD).amazonProfit

/-- Player two's expected `flipkartProfit` when playing the pure strategy `t` against the
mixing `mix` of player one. -/
def flipkartPayoffAgainst (cells : Strategy → Strategy → Cell) (mix : Strategy → ℚ)
    (t : Strategy) : ℚ :=
  mix Strategy.HD * (cells Strategy.HD t).flipkartProfit
    + mix Strategy.MD * (cells Strategy.MD t).flipkartProfit
    + mix Strategy.LD * (cells Strategy.LD t).flipkartProfit

/-- Matching pennies on HD and MD (stakes 2) where player one's LD earns 1 against HD and MD,
and player two's LD is strictly worse than its other strategies. -/
def penniesOutside : Strategy → Strategy → Cell
  | Strategy.HD, Strategy.HD => { amazonProfit := 2, flipkartProfit := -2 }
  | Strategy.HD, Strategy.MD => { amazonProfit := -2, flipkartProfit := 2 }
  | Strategy.MD, Strategy.HD => { amazonProfit := -2, flipkartProfit := 2 }
  | Strategy.MD, Strategy.MD => { amazonProfit := 2, flipkartProfit := -2 }
  | Strategy.LD, Strategy.LD => { amazonProfit := 0, flipkartProfit := -5 }
  | Strategy.LD, _ => { amazonProfit := 1, flipkartProfit := 0 }
  | _, Strategy.LD => { amazonProfit := 0, flipkartProfit := -5 }

/-- A matrix in which MD is dominant for both players, (MD, MD) is the only equilibrium, and
the joint profit 10 of (MD, MD) is also attained by the earlier cell (HD, HD). -/
def tieDilemma : Strategy → Strategy → Cell
  | Strategy.HD, Strategy.HD => { amazonProfit := 5, flipkartProfit := 5 }
  | Strategy.HD, Strategy.MD => { amazonProfit := 0, flipkartProfit := 5 }
  | Strategy.MD, Strategy.HD => { amazonProfit := 6, flipkartProfit := 0 }
  | Strategy.MD, Strategy.MD => { amazonProfit := 5, flipkartProfit := 5 }
  | Strategy.LD, Strategy.LD => { amazonProfit := -1, flipkartProfit := -1 }
  | Strategy.LD, _ => { amazonProfit := -1, flipkartProfit := 0 }
  | _, Strategy.LD => { amazonProfit := 0, flipkartProfit := -1 }

/-- The rows of `shiftData` with the profit of the HD rows of player one raised to 10000. -/
def crashData : List Row :=
  shiftData.map (fun r =>
    if r.Amazon_Strategy = Strategy.HD then { r with Amazon_Profit := 10000 } else r)

/-- The rows of `shiftData` with the HD rows of player one at profit 40 and advertising spend
0: whatever player two plays, player one earns 20 with MD, 0 with LD, and with HD 40 up to the
multiplier 1.2 and `40 * 0.4 = 16` above it. -/
def thresholdData : List Row :=
  shiftData.map (fun r =>
    if r.Amazon_Strategy = Strategy.HD then
      { r with Amazon_Profit := 40, Amazon_Ad_Spend := some 0 }
    else r)

/-- The cells that `processDataForYear thresholdData m` holds. -/
def thresholdCells (m : ℚ) : Strategy → Strategy → Cell :=
  fun a b =>
    { amazonProfit :=
        match a with
        | Strategy.HD => if m > 12 / 10 then 16 else 40
        | Strategy.MD => 20
        | Strategy.LD => 0
      flipkartProfit :=
        match b with
        | Strategy.HD => 10
        | Strategy.MD => 20
        | Strategy.LD => 0 }

/-! ## Auxiliary lemmas and verified properties -/

theorem scanStep_foldl (f : Strategy → ℚ) (l : List Strategy) :
    ∀ (pre : List Strategy) (mx : ℚ), (∀ x ∈ pre, f x ≤ mx) → (∃ x ∈ pre, f x = mx) →
      ∃ mx', l.foldl (fun st s => scanStep (f s) s st)
            (some mx, pre.filter (fun s => decide (f s = mx)))
          = (some mx', (pre ++ l).filter (fun s => decide (f s = mx')))
        ∧ (∀ x ∈ pre ++ l, f x ≤ mx') ∧ (∃ x ∈ pre ++ l, f x = mx') := by
  induction l with
  | nil =>
    intro pre mx hle hex
    exact ⟨mx, by simp, by simpa using hle, by simpa using hex⟩
  | cons s l ih =>
    intro pre mx hle hex
    have key : ∃ mx1, scanStep (f s) s (some mx, pre.filter (fun s => decide (f s = mx)))
          = (some mx1, (pre ++ [s]).filter (fun s => decide (f s = mx1)))
        ∧ (∀ x ∈ pre ++ [s], f x ≤ mx1) ∧ (∃ x ∈ pre ++ [s], f x = mx1) := by
      rcases lt_trichotomy (f s) mx with hlt | heq | hgt
      · refine ⟨mx, ?_, ?_, ?_⟩
        · have h1 : ¬ f s > mx := not_lt.mpr hlt.le
          have h2 : ¬ f s = mx := ne_of_lt hlt
          simp [scanStep, h1, h2, List.filter_append]
        · intro x hx
          rcases List.mem_append.mp hx with hx | hx
          · exact hle x hx
          · simp at hx; subst hx; exact hlt.le
        · obtain ⟨x, hx, hfx⟩ := hex
          exact ⟨x, List.mem_append_left _ hx, hfx⟩
      · refine ⟨mx, ?_, ?_, ?_⟩
        · have h1 : ¬ f s > mx := by rw [heq]; exact lt_irrefl _
          simp [scanStep, h1, heq, List.filter_append]
        · intro x hx
          rcases List.mem_append.mp hx with hx | hx
          · exact hle x hx
          · simp at hx; subst hx; exact heq.le
        · exact ⟨s, by simp, heq⟩
      · refine ⟨f s, ?_, ?_, ?_⟩
        · have h3 : pre.filter (fun t => decide (f t = f s)) = [] := by
            rw [List.filter_eq_nil_iff]
            intro x hx
            have := hle x hx
            simp only [decide_eq_true_eq]
            exact ne_of_lt (lt_of_le_of_lt this hgt)
          simp [scanStep, hgt, List.filter_append, h3]
        · intro x hx
          rcases List.mem_append.mp hx with hx | hx
          · exact (hle x hx).trans hgt.le
          · simp at hx; subst hx; exact le_refl _
        · exact ⟨s, by simp, rfl⟩
    obtain ⟨mx1, hstep, hle1, hex1⟩ := key
    obtain ⟨mx', hfold, hle', hex'⟩ := ih (pre ++ [s]) mx1 hle1 hex1
    refine ⟨mx', ?_, ?_, ?_⟩
    · rw [List.foldl_cons, hstep, hfold]; simp
    · simpa using hle'
    · simpa using hex'

theorem bestResponseScan_full (f : Strategy → ℚ) :
    bestResponseScan (fun s => some (f s))
      = some (STRATEGIES.filter (fun s => decide (∀ t, f t ≤ f s))) := by
  have h0 : bestResponseScan (fun s => some (f s))
      = some ([Strategy.MD, Strategy.LD].foldl (fun st s => scanStep (f s) s st)
          (some (f Strategy.HD),
            [Strategy.HD].filter (fun s => decide (f s = f Strategy.HD)))).2 := by
    simp [bestResponseScan, STRATEGIES, List.foldlM, scanStep]
  obtain ⟨mx', hfold, hle, hex⟩ :=
    scanStep_foldl f [Strategy.MD, Strategy.LD] [Strategy.HD] (f Strategy.HD)
      (by simp) ⟨Strategy.HD, by simp, rfl⟩
  rw [h0, hfold]
  have hall : ∀ x : Strategy, f x ≤ mx' := by
    intro x; apply hle; cases x <;> simp
  obtain ⟨y, _, hy⟩ := hex
  simp only [STRATEGIES, List.cons_append, List.nil_append, Option.some.injEq]
  apply List.filter_congr
  intro s _
  simp only [decide_eq_decide]
  constructor
  · intro h t; rw [h]; exact hall t
  · intro h; exact le_antisymm (hall s) (hy ▸ h y)

theorem forall_strategy (p : Strategy → Prop) :
    (∀ s, p s) ↔ p Strategy.HD ∧ p Strategy.MD ∧ p Strategy.LD := by
  constructor
  · intro h; exact ⟨h _, h _, h _⟩
  · rintro ⟨h1, h2, h3⟩ s; cases s <;> assumption

theorem foldlM_eq_some {α β : Type} (f : β → α → Option β) (g : β → α → β)
    (h : ∀ b a, f b a = some (g b a)) (l : List α) :
    ∀ b, l.foldlM f b = some (l.foldl g b) := by
  induction l with
  | nil => intro b; rfl
  | cons a l ih => intro b; simp [List.foldlM, h, ih]

theorem foldl_push_filter {α β : Type} (p : α → Bool) (g : α → β) (l : List α) :
    ∀ acc : List β,
      l.foldl (fun acc x => if p x = true then acc ++ [g x] else acc) acc
        = acc ++ (l.filter p).map g := by
  induction l with
  | nil => intro acc; simp
  | cons a l ih =>
    intro acc
    cases hp : p a <;> simp [List.foldl_cons, hp, ih, List.filter_cons]

theorem findNash_eq_filter (A F : Strategy → List Strategy) :
    findNash A F
      = rowMajorCells.filter
          (fun p => (A p.flipkart).contains p.amazon && (F p.amazon).contains p.flipkart) := by
  have hrow : rowMajorCells
      = STRATEGIES.map (fun b => ({ amazon := Strategy.HD, flipkart := b } : StrategyPair))
        ++ STRATEGIES.map (fun b => ({ amazon := Strategy.MD, flipkart := b } : StrategyPair))
        ++ STRATEGIES.map (fun b => ({ amazon := Strategy.LD, flipkart := b } : StrategyPair)) :=
    rfl
  unfold findNash
  simp only [foldl_push_filter]
  rw [hrow, List.filter_append, List.filter_append, List.filter_map, List.filter_map,
    List.filter_map]
  simp only [STRATEGIES, List.foldl_cons, List.foldl_nil, List.nil_append]
  rfl

theorem foldl_and_all {α : Type} (q : α → Bool) (l : List α) :
    ∀ b : Bool, l.foldl (fun acc x => acc && q x) b = (b && l.all q) := by
  induction l with
  | nil => intro b; simp
  | cons a l ih =>
    intro b
    rw [List.foldl_cons, ih, List.all_cons, Bool.and_assoc]

theorem dominantInner_total (payoff : Strategy → Strategy → Option ℚ)
    (P : Strategy → Strategy → ℚ) (h : ∀ a b, payoff a b = some (P a b))
    (candidate other : Strategy) (l : List Strategy) (b : Bool) :
    l.foldlM
        (fun isDominant opp => do
          let x ← payoff candidate opp
          let y ← payoff other opp
          pure (if x < y then false else isDominant))
        b
      = some (b && l.all (fun opp => !decide (P candidate opp < P other opp))) := by
  rw [foldlM_eq_some _
    (fun isDominant opp => isDominant && !decide (P candidate opp < P other opp))
    (by
      intro b a
      by_cases hlt : P candidate a < P other a <;> simp [h, hlt])]
  rw [foldl_and_all]

theorem dominantMiddle_total (payoff : Strategy → Strategy → Option ℚ)
    (P : Strategy → Strategy → ℚ) (h : ∀ a b, payoff a b = some (P a b))
    (candidate : Strategy) (l : List Strategy) (b : Bool) :
    l.foldlM
        (fun isDominant other =>
          if candidate = other then pure isDominant
          else STRATEGIES.foldlM
            (fun isDominant opp => do
              let x ← payoff candidate opp
              let y ← payoff other opp
              pure (if x < y then false else isDominant))
            isDominant)
        b
      = some (b && l.all (fun other => decide (candidate = other) ||
          STRATEGIES.all (fun opp => !decide (P candidate opp < P other opp)))) := by
  rw [foldlM_eq_some _
    (fun isDominant other => isDominant && (decide (candidate = other) ||
          STRATEGIES.all (fun opp => !decide (P candidate opp < P other opp))))
    (by
      intro b o
      by_cases hc : candidate = o
      · simp [hc]
      · rw [if_neg hc, dominantInner_total payoff P h]
        simp [hc])]
  rw [foldl_and_all]

theorem isDominant_iff_all (P : Strategy → Strategy → ℚ) (candidate : Strategy) :
    (STRATEGIES.all (fun other => decide (candidate = other) ||
        STRATEGIES.all (fun opp => !decide (P candidate opp < P other opp))))
      = decide (IsDominant P candidate) := by
  rw [Bool.eq_iff_iff]
  simp only [List.all_eq_true, Bool.or_eq_true, decide_eq_true_eq, Bool.not_eq_true',
    decide_eq_false_iff_not, not_lt, IsDominant, ge_iff_le]
  constructor
  · intro hall s' hs t
    rcases hall s' (by cases s' <;> simp [STRATEGIES]) with h | h
    · exact absurd h.symm hs
    · exact h t (by cases t <;> simp [STRATEGIES])
  · intro hd other _
    by_cases hc : candidate = other
    · exact Or.inl hc
    · exact Or.inr (fun opp _ => hd other (fun e => hc e.symm) opp)

theorem dominantOuter (isDom : Strategy → Bool) (l : List Strategy) :
    ∀ d : Option Strategy,
      l.foldl (fun dominant candidate => if isDom candidate = true then some candidate else dominant) d
        = ((l.filter isDom).getLast?).or d := by
  induction l with
  | nil => intro d; simp
  | cons c l ih =>
    intro d
    rw [List.foldl_cons, ih]
    cases hc : isDom c
    · simp [hc, List.filter_cons]
    · simp only [hc, if_true, List.filter_cons]
      rw [List.getLast?_cons]
      cases (List.filter isDom l).getLast? <;> simp

theorem dominantScan_total (payoff : Strategy → Strategy → Option ℚ)
    (P : Strategy → Strategy → ℚ) (h : ∀ a b, payoff a b = some (P a b)) :
    dominantScan payoff
      = some ((STRATEGIES.filter (fun s => decide (IsDominant P s))).getLast?) := by
  unfold dominantScan
  rw [foldlM_eq_some _
    (fun dominant candidate =>
      if decide (IsDominant P candidate) = true then some candidate else dominant)
    (by
      intro d c
      rw [dominantMiddle_total payoff P h c STRATEGIES true]
      simp [isDominant_iff_all])]
  rw [dominantOuter (fun s => decide (IsDominant P s))]
  simp

theorem forEachStrategy_total {α : Type} (f : Strategy → Option α) (g : Strategy → α)
    (h : ∀ s, f s = some (g s)) : forEachStrategy f = some g := by
  unfold forEachStrategy
  rw [h, h, h]
  show some _ = some g
  congr 1
  funext s
  cases s <;> rfl

theorem analyzeGame_full (cells : Strategy → Strategy → Cell) :
    analyzeGame (Matrix.full cells) = some
      { nashEquilibria :=
          findNash (bestReplies (amazonPayoff cells)) (bestReplies (flipkartPayoff cells))
        amazonDominant :=
          (STRATEGIES.filter (fun s => decide (IsDominant (amazonPayoff cells) s))).getLast?
        flipkartDominant :=
          (STRATEGIES.filter (fun s => decide (IsDominant (flipkartPayoff cells) s))).getLast?
        amazonBestResponses := bestReplies (amazonPayoff cells)
        flipkartBestResponses := bestReplies (flipkartPayoff cells) } := by
  have hF : forEachStrategy (fun amz =>
      bestResponseScan (fun flip => (Matrix.full cells amz flip).map Cell.flipkartProfit))
        = some (bestReplies (flipkartPayoff cells)) :=
    forEachStrategy_total _ _
      (fun amz => bestResponseScan_full (fun flip => flipkartPayoff cells flip amz))
  have hA : forEachStrategy (fun flip =>
      bestResponseScan (fun amz => (Matrix.full cells amz flip).map Cell.amazonProfit))
        = some (bestReplies (amazonPayoff cells)) :=
    forEachStrategy_total _ _
      (fun flip => bestResponseScan_full (fun amz => amazonPayoff cells amz flip))
  have hdA := dominantScan_total
    (fun cand flip => (Matrix.full cells cand flip).map Cell.amazonProfit)
    (amazonPayoff cells) (fun _ _ => rfl)
  have hdF := dominantScan_total
    (fun cand amz => (Matrix.full cells amz cand).map Cell.flipkartProfit)
    (flipkartPayoff cells) (fun _ _ => rfl)
  unfold analyzeGame
  rw [hF, hA, hdA, hdF]
  rfl

theorem mem_rowMajorCells (p : StrategyPair) : p ∈ rowMajorCells := by
  obtain ⟨a, b⟩ := p
  cases a <;> cases b <;> simp [rowMajorCells]

theorem mem_STRATEGIES (s : Strategy) : s ∈ STRATEGIES := by
  cases s <;> simp [STRATEGIES]

theorem mem_bestReplies (payoff : Strategy → Strategy → ℚ) (opp s : Strategy) :
    s ∈ bestReplies payoff opp ↔ ∀ t, payoff t opp ≤ payoff s opp := by
  simp [bestReplies, mem_STRATEGIES]

theorem le_all_iff_eq_max (f : Strategy → ℚ) (s : Strategy) :
    (∀ t, f t ≤ f s) ↔ f s = max (max (f Strategy.HD) (f Strategy.MD)) (f Strategy.LD) := by
  constructor
  · intro h
    apply le_antisymm
    · cases s
      · exact le_trans (le_max_left _ _) (le_max_left _ _)
      · exact le_trans (le_max_right _ _) (le_max_left _ _)
      · exact le_max_right _ _
    · exact max_le (max_le (h _) (h _)) (h _)
  · intro h t
    rw [h]
    cases t
    · exact le_trans (le_max_left _ _) (le_max_left _ _)
    · exact le_trans (le_max_right _ _) (le_max_left _ _)
    · exact le_max_right _ _

theorem bestReplies_ne_nil (payoff : Strategy → Strategy → ℚ) (opp : Strategy) :
    bestReplies payoff opp ≠ [] := by
  have hmax : ∃ s, payoff s opp
      = max (max (payoff Strategy.HD opp) (payoff Strategy.MD opp)) (payoff Strategy.LD opp) := by
    rcases max_choice (max (payoff Strategy.HD opp) (payoff Strategy.MD opp))
      (payoff Strategy.LD opp) with h | h
    · rcases max_choice (payoff Strategy.HD opp) (payoff Strategy.MD opp) with h1 | h1
      · exact ⟨Strategy.HD, by rw [h, h1]⟩
      · exact ⟨Strategy.MD, by rw [h, h1]⟩
    · exact ⟨Strategy.LD, by rw [h]⟩
  obtain ⟨s, hs⟩ := hmax
  intro hnil
  have hmem : s ∈ bestReplies payoff opp :=
    (mem_bestReplies payoff opp s).mpr
      ((le_all_iff_eq_max (fun t => payoff t opp) s).mpr hs)
  rw [hnil] at hmem
  exact absurd hmem (List.not_mem_nil s)

theorem contains_eq_decide_mem (l : List Strategy) (a : Strategy) :
    l.contains a = decide (a ∈ l) := by
  simp [List.contains]

/-- C1: for a fully populated matrix, `(a, b)` is listed in `nashEquilibria` exactly when
neither player gains by deviating unilaterally: player one's profit at `(a, b)` is at least
its profit at every `(a', b)`, and player two's profit at `(a, b)` is at least its profit at
every `(a, b')`. -/
theorem analyzeGame_nash_iff_no_deviation (cells : Strategy → Strategy → Cell)
    (a b : Strategy) :
    ∃ an, analyzeGame (Matrix.full cells) = some an ∧
      (({ amazon := a, flipkart := b } : StrategyPair) ∈ an.nashEquilibria ↔
        (∀ a', (cells a b).amazonProfit ≥ (cells a' b).amazonProfit) ∧
        (∀ b', (cells a b).flipkartProfit ≥ (cells a b').flipkartProfit)) := by
  refine ⟨_, analyzeGame_full cells, ?_⟩
  simp only [findNash_eq_filter, List.mem_filter, mem_rowMajorCells, true_and,
    Bool.and_eq_true, contains_eq_decide_mem, decide_eq_true_eq, mem_bestReplies, amazonPayoff, flipkartPayoff,
    ge_iff_le]

/-- C2: for a fully populated matrix, `nashEquilibria` is the sub-list of the row-major
enumeration of the nine cells made of the cells `(a, b)` with `a` in `amazonBestResponses[b]`
and `b` in `flipkartBestResponses[a]`; hence every entry passes both containment checks, no
qualifying cell is missing, there are no duplicates and the enumeration order is kept. -/
theorem analyzeGame_nash_eq_filter_rowMajor (cells : Strategy → Strategy → Cell) :
    ∃ an, analyzeGame (Matrix.full cells) = some an ∧
      an.nashEquilibria = rowMajorCells.filter (fun p =>
        decide (p.amazon ∈ an.amazonBestResponses p.flipkart) &&
        decide (p.flipkart ∈ an.flipkartBestResponses p.amazon)) ∧
      (∀ p ∈ an.nashEquilibria,
        p.amazon ∈ an.amazonBestResponses p.flipkart ∧
        p.flipkart ∈ an.flipkartBestResponses p.amazon) ∧
      (∀ p : StrategyPair,
        p.amazon ∈ an.amazonBestResponses p.flipkart →
        p.flipkart ∈ an.flipkartBestResponses p.amazon → p ∈ an.nashEquilibria) ∧
      an.nashEquilibria.Nodup ∧
      List.Sublist an.nashEquilibria rowMajorCells := by
  refine ⟨_, analyzeGame_full cells, ?_, ?_, ?_, ?_, ?_⟩
  · simp only [findNash_eq_filter, contains_eq_decide_mem, decide_eq_true_eq]
  · intro p hp
    simpa [findNash_eq_filter, mem_rowMajorCells] using hp
  · intro p h1 h2
    simp only [findNash_eq_filter, List.mem_filter, mem_rowMajorCells, true_and,
      Bool.and_eq_true, contains_eq_decide_mem, decide_eq_true_eq]
    exact ⟨h1, h2⟩
  · simp only [findNash_eq_filter]
    exact List.Nodup.filter _ (by decide)
  · simp only [findNash_eq_filter]
    exact List.filter_sublist _

/-- C3: for a fully populated matrix and every player-one strategy `a`,
`flipkartBestResponses[a]` is the list, in the order HD, MD, LD, of the player-two strategies
whose `flipkartProfit` in row `a` equals the maximum of that row (exact equality);
symmetrically `amazonBestResponses[b]` lists the player-one strategies whose `amazonProfit` in
column `b` equals the column maximum.  Each of the six lists is non-empty. -/
theorem analyzeGame_bestResponses_eq_argmax (cells : Strategy → Strategy → Cell) :
    ∃ an, analyzeGame (Matrix.full cells) = some an ∧
      (∀ a, an.flipkartBestResponses a
          = [Strategy.HD, Strategy.MD, Strategy.LD].filter (fun b =>
              decide ((cells a b).flipkartProfit
                = max (max (cells a Strategy.HD).flipkartProfit
                    (cells a Strategy.MD).flipkartProfit) (cells a Strategy.LD).flipkartProfit))
        ∧ an.flipkartBestResponses a ≠ []) ∧
      (∀ b, an.amazonBestResponses b
          = [Strategy.HD, Strategy.MD, Strategy.LD].filter (fun a =>
              decide ((cells a b).amazonProfit
                = max (max (cells Strategy.HD b).amazonProfit
                    (cells Strategy.MD b).amazonProfit) (cells Strategy.LD b).amazonProfit))
        ∧ an.amazonBestResponses b ≠ []) := by
  refine ⟨_, analyzeGame_full cells, ?_, ?_⟩
  · intro a
    refine ⟨?_, bestReplies_ne_nil _ a⟩
    show bestReplies (flipkartPayoff cells) a = _
    unfold bestReplies STRATEGIES
    apply List.filter_congr
    intro b _
    rw [decide_eq_decide]
    exact le_all_iff_eq_max (fun t => flipkartPayoff cells t a) b
  · intro b
    refine ⟨?_, bestReplies_ne_nil _ b⟩
    show bestReplies (amazonPayoff cells) b = _
    unfold bestReplies STRATEGIES
    apply List.filter_congr
    intro a _
    rw [decide_eq_decide]
    exact le_all_iff_eq_max (fun t => amazonPayoff cells t b) a

/-- C4: for a fully populated matrix, `amazonDominant` is the last strategy `s` in the order
HD, MD, LD with `amazonProfit` at `(s, t)` at least that at `(s', t)` for every other
player-one strategy `s'` and every player-two strategy `t`, and it is null exactly when no
strategy satisfies the condition; `flipkartDominant` likewise from `flipkartProfit` with the
roles of the players swapped. -/
theorem analyzeGame_dominant_eq_last (cells : Strategy → Strategy → Cell) :
    ∃ an, analyzeGame (Matrix.full cells) = some an ∧
      an.amazonDominant
        = ([Strategy.HD, Strategy.MD, Strategy.LD].filter (fun s =>
            decide (∀ s', s' ≠ s → ∀ t,
              (cells s t).amazonProfit ≥ (cells s' t).amazonProfit))).getLast? ∧
      (an.amazonDominant = none ↔
        ∀ s, ¬ (∀ s', s' ≠ s → ∀ t, (cells s t).amazonProfit ≥ (cells s' t).amazonProfit)) ∧
      an.flipkartDominant
        = ([Strategy.HD, Strategy.MD, Strategy.LD].filter (fun s =>
            decide (∀ s', s' ≠ s → ∀ t,
              (cells t s).flipkartProfit ≥ (cells t s').flipkartProfit))).getLast? ∧
      (an.flipkartDominant = none ↔
        ∀ s, ¬ (∀ s', s' ≠ s → ∀ t,
          (cells t s).flipkartProfit ≥ (cells t s').flipkartProfit)) := by
  refine ⟨_, analyzeGame_full cells, rfl, ?_, rfl, ?_⟩
  · show (STRATEGIES.filter (fun s => decide (IsDominant (amazonPayoff cells) s))).getLast?
      = none ↔ _
    rw [List.getLast?_eq_none_iff, List.filter_eq_nil_iff]
    simp only [decide_eq_true_eq]
    exact ⟨fun h s => h s (mem_STRATEGIES s), fun h s _ => h s⟩
  · show (STRATEGIES.filter (fun s => decide (IsDominant (flipkartPayoff cells) s))).getLast?
      = none ↔ _
    rw [List.getLast?_eq_none_iff, List.filter_eq_nil_iff]
    simp only [decide_eq_true_eq]
    exact ⟨fun h s => h s (mem_STRATEGIES s), fun h s _ => h s⟩

theorem processRow_apply_of_hasPair (year : String) (m : ℚ) (matrix : Matrix) (row : Row)
    (a b : Strategy) (h : row.hasPair a b = true) :
    processRow year m matrix row a b
      = some { amazonProfit := ((matrix a b).getD zeroCell).amazonProfit
                 + adjustedAmzProfit year m row * row.Demand_Probability
               flipkartProfit := ((matrix a b).getD zeroCell).flipkartProfit
                 + baseFlipProfit year row * row.Demand_Probability } := by
  simp only [Row.hasPair, Bool.and_eq_true, decide_eq_true_eq] at h
  have hc : a = row.Amazon_Strategy ∧ b = row.Flipkart_Strategy := ⟨h.1.symm, h.2.symm⟩
  simp only [processRow, if_pos hc, zeroCell]

theorem processRow_apply_of_not_hasPair (year : String) (m : ℚ) (matrix : Matrix) (row : Row)
    (a b : Strategy) (h : row.hasPair a b = false) :
    processRow year m matrix row a b = matrix a b := by
  have hc : ¬ (a = row.Amazon_Strategy ∧ b = row.Flipkart_Strategy) := by
    rintro ⟨h1, h2⟩
    simp [Row.hasPair, h1, h2] at h
  simp only [processRow, if_neg hc]

theorem foldl_processRow_apply (year : String) (m : ℚ) (a b : Strategy) (rows : List Row) :
    ∀ matrix : Matrix,
      (rows.foldl (processRow year m) matrix) a b
        = if rows.filter (Row.hasPair a b) = [] then matrix a b
          else some
            { amazonProfit := ((matrix a b).getD zeroCell).amazonProfit
                + ((rows.filter (Row.hasPair a b)).map
                    (fun r => adjustedAmzProfit year m r * r.Demand_Probability)).sum
              flipkartProfit := ((matrix a b).getD zeroCell).flipkartProfit
                + ((rows.filter (Row.hasPair a b)).map
                    (fun r => baseFlipProfit year r * r.Demand_Probability)).sum } := by
  induction rows with
  | nil => intro matrix; simp
  | cons r rows ih =>
    intro matrix
    rw [List.foldl_cons, ih]
    cases hr : r.hasPair a b
    · rw [processRow_apply_of_not_hasPair year m matrix r a b hr]
      simp only [List.filter_cons, hr, Bool.false_eq_true, if_false]
    · rw [processRow_apply_of_hasPair year m matrix r a b hr]
      simp only [List.filter_cons, hr, if_true, List.map_cons, List.sum_cons,
        Option.getD_some]
      by_cases hnil : rows.filter (Row.hasPair a b) = []
      · simp [hnil]
      · simp only [hnil, if_false, reduceCtorEq, Option.some.injEq, Cell.mk.injEq]
        constructor <;> ring

theorem processDataForYear_apply (rows : List Row) (m : ℚ) (year : String)
    (hyear : ∀ r ∈ rows, r.Festival_Year = year) (a b : Strategy) :
    processDataForYear rows m a b
      = if rows.filter (Row.hasPair a b) = [] then none
        else some
          { amazonProfit := ((rows.filter (Row.hasPair a b)).map
              (fun r => adjustedAmzProfit year m r * r.Demand_Probability)).sum
            flipkartProfit := ((rows.filter (Row.hasPair a b)).map
              (fun r => baseFlipProfit year r * r.Demand_Probability)).sum } := by
  cases rows with
  | nil => simp [processDataForYear, Matrix.empty]
  | cons first rest =>
    have h1 : first.Festival_Year = year := hyear first (List.mem_cons_self _ _)
    simp only [processDataForYear, h1]
    rw [foldl_processRow_apply]
    simp [Matrix.empty, zeroCell]

/-- C5 (as stated, refuted): with the single row `sampleRow` of pair (HD, HD), the lookup of
the pair (MD, MD) in the returned matrix is undefined; it is not the zero cell. -/
theorem processDataForYear_missing_pair_undefined :
    (processDataForYear [sampleRow] 1 Strategy.MD Strategy.MD).isSome = false ∧
    processDataForYear [sampleRow] 1 Strategy.MD Strategy.MD ≠ some zeroCell := by
  have h : processDataForYear [sampleRow] 1 Strategy.MD Strategy.MD = none := by
    simp [processDataForYear, processRow, sampleRow, Matrix.empty]
  rw [h]
  simp

/-- C5 (amended): for every list of rows and every cost multiplier, the matrix returned by
`processDataForYear` has a cell for a strategy pair exactly when some input row carries that
pair; a pair with no row has no cell (the lookup is undefined), not a zero cell. -/
theorem processDataForYear_cell_present_iff (rows : List Row) (m : ℚ) (a b : Strategy) :
    (processDataForYear rows m a b).isSome = true
      ↔ ∃ r ∈ rows, r.Amazon_Strategy = a ∧ r.Flipkart_Strategy = b := by
  have hfilter : rows.filter (Row.hasPair a b) = []
      ↔ ¬ ∃ r ∈ rows, r.Amazon_Strategy = a ∧ r.Flipkart_Strategy = b := by
    rw [List.filter_eq_nil_iff]
    simp [Row.hasPair]
  cases rows with
  | nil => simp [processDataForYear, Matrix.empty]
  | cons first rest =>
    simp only [processDataForYear]
    rw [foldl_processRow_apply]
    by_cases hnil : (first :: rest).filter (Row.hasPair a b) = []
    · rw [if_pos hnil]
      have := hfilter.mp hnil
      simp only [Matrix.empty, Option.isSome_none, Bool.false_eq_true, false_iff]
      exact this
    · rw [if_neg hnil]
      have := not_not.mp (mt hfilter.mpr hnil)
      simp only [Option.isSome_some, true_iff]
      exact this

/-- C6 (as stated, refuted): for the empty observation list the returned matrix has no
(HD, HD) cell, so it is not the all-zero matrix, and `analyzeGame` applied to it fails. -/
theorem processDataForYear_nil_not_zero_matrix :
    processDataForYear [] 1 Strategy.HD Strategy.HD ≠ some zeroCell ∧
    (analyzeGame (processDataForYear [] 1)).isSome = false := by
  constructor
  · simp [processDataForYear, Matrix.empty]
  · rfl

/-- C6 (amended): for the empty observation list and every cost multiplier,
`processDataForYear` returns the empty object (no cell for any strategy pair), and
`analyzeGame` applied to that result fails on its first cell lookup. -/
theorem processDataForYear_nil_empty_and_analyzeGame_fails (m : ℚ) :
    (∀ a b, processDataForYear [] m a b = none) ∧
    analyzeGame (processDataForYear [] m) = none := by
  constructor
  · intro a b; rfl
  · rfl

/-- C7: for a non-empty list of rows of one period, every cost multiplier `m` and every
strategy pair `(a, b)` occurring in the rows, the cell `(a, b)` of `processDataForYear` holds
as `amazonProfit` the sum over exactly the rows of pair `(a, b)` of the row's adjusted
player-one profit times `Demand_Probability`, and as `flipkartProfit` the sum over the same
rows of `Flipkart_Profit` times the period scale times `Demand_Probability`. -/
theorem processDataForYear_cell_eq_sum (rows : List Row) (m : ℚ) (a b : Strategy)
    (hne : rows ≠ [])
    (hperiod : ∀ r ∈ rows, ∀ r' ∈ rows, r.Festival_Year = r'.Festival_Year)
    (hocc : ∃ r ∈ rows, r.Amazon_Strategy = a ∧ r.Flipkart_Strategy = b) :
    processDataForYear rows m a b = some
      { amazonProfit :=
          ((rows.filter (fun r =>
              decide (r.Amazon_Strategy = a) && decide (r.Flipkart_Strategy = b))).map
            (fun r => adjustedAmzProfit r.Festival_Year m r * r.Demand_Probability)).sum
        flipkartProfit :=
          ((rows.filter (fun r =>
              decide (r.Amazon_Strategy = a) && decide (r.Flipkart_Strategy = b))).map
            (fun r => r.Flipkart_Profit * getYearMultiplier r.Festival_Year
              * r.Demand_Probability)).sum } := by
  obtain ⟨first, rest, rfl⟩ := List.exists_cons_of_ne_nil hne
  have hyear : ∀ r ∈ first :: rest, r.Festival_Year = first.Festival_Year :=
    fun r hr => hperiod r hr first (List.mem_cons_self _ _)
  rw [processDataForYear_apply (first :: rest) m first.Festival_Year hyear a b]
  have hnil : ¬ (first :: rest).filter (Row.hasPair a b) = [] := by
    rw [List.filter_eq_nil_iff]
    obtain ⟨r, hr, h1, h2⟩ := hocc
    intro h
    exact h r hr (by simp [Row.hasPair, h1, h2])
  rw [if_neg hnil]
  have hfun : (fun r : Row => decide (r.Amazon_Strategy = a) && decide (r.Flipkart_Strategy = b))
      = Row.hasPair a b := rfl
  rw [hfun]
  have hmem : ∀ r ∈ (first :: rest).filter (Row.hasPair a b),
      r.Festival_Year = first.Festival_Year :=
    fun r hr => hyear r (List.mem_of_mem_filter hr)
  congr 2
  · congr 1
    apply List.map_congr_left
    intro r hr
    rw [hmem r hr]
  · congr 1
    apply List.map_congr_left
    intro r hr
    rw [hmem r hr]
    rfl

/-- C7 (instance): the two sample rows of period 2021 with multiplier 3 satisfy the
hypotheses; the cell (HD, HD) is fed by the first row only and evaluates to
`(1000 - 2 * 1000 * 3) * 0.4 * 0.5 = -1000` and `800 * 0.5 = 400`. -/
theorem processDataForYear_cell_eq_sum_witness :
    [sampleRow, sampleRow2] ≠ [] ∧
    (∀ r ∈ [sampleRow, sampleRow2], ∀ r' ∈ [sampleRow, sampleRow2],
      r.Festival_Year = r'.Festival_Year) ∧
    (∃ r ∈ [sampleRow, sampleRow2],
      r.Amazon_Strategy = Strategy.HD ∧ r.Flipkart_Strategy = Strategy.HD) ∧
    processDataForYear [sampleRow, sampleRow2] 3 Strategy.HD Strategy.HD
      = some { amazonProfit := -1000, flipkartProfit := 400 } := by
  have h1 : [sampleRow, sampleRow2] ≠ [] := by simp
  have h2 : ∀ r ∈ [sampleRow, sampleRow2], ∀ r' ∈ [sampleRow, sampleRow2],
      r.Festival_Year = r'.Festival_Year := by simp [sampleRow, sampleRow2]
  have h3 : ∃ r ∈ [sampleRow, sampleRow2],
      r.Amazon_Strategy = Strategy.HD ∧ r.Flipkart_Strategy = Strategy.HD :=
    ⟨sampleRow, by simp, rfl, rfl⟩
  refine ⟨h1, h2, h3, ?_⟩
  rw [processDataForYear_cell_eq_sum [sampleRow, sampleRow2] 3 Strategy.HD Strategy.HD h1 h2 h3]
  simp [sampleRow, sampleRow2, adjustedAmzProfit, extraAdSpend, adSpendScale,
    getYearMultiplier]
  norm_num

/-- C8: the adjusted player-one profit of a row in `processDataForYear` is
`(Amazon_Profit * periodScale - Amazon_Ad_Spend * crisisFactor * 1000 * m) * f`, with
`periodScale` 1.0, 1.15, 1.30, 0.90, 0.60 for the periods 2021 to 2025 and 1.0 for any other
period, `crisisFactor` 1.5 for period 2025 and 1.0 otherwise, `f = 1` off HD, and for HD rows
`f` the product of 0.4 when `m > 1.2` (not applied at `m = 1.2`) and of 0.5 when the period
is 2025 (both together give 0.2). -/
theorem adjustedAmzProfit_eq_formula :
    (getYearMultiplier "2021" = 1 ∧ getYearMultiplier "2022" = 115 / 100 ∧
      getYearMultiplier "2023" = 130 / 100 ∧ getYearMultiplier "2024" = 90 / 100 ∧
      getYearMultiplier "2025" = 60 / 100 ∧
      ∀ year, year ∉ ["2021", "2022", "2023", "2024", "2025"] → getYearMultiplier year = 1) ∧
    (adSpendScale "2025" = 15 / 10 ∧ ∀ year, year ≠ "2025" → adSpendScale year = 1) ∧
    (∀ (year : String) (m : ℚ) (row : Row),
      adjustedAmzProfit year m row
        = (row.Amazon_Profit * getYearMultiplier year
            - row.Amazon_Ad_Spend.getD 0 * adSpendScale year * 1000 * m)
          * (if row.Amazon_Strategy = Strategy.HD then
              (if m > 12 / 10 then 4 / 10 else 1) * (if year = "2025" then 5 / 10 else 1)
             else 1)) ∧
    (∀ (year : String) (row : Row), row.Amazon_Strategy = Strategy.HD → year ≠ "2025" →
      adjustedAmzProfit year (12 / 10) row
        = row.Amazon_Profit * getYearMultiplier year
            - row.Amazon_Ad_Spend.getD 0 * adSpendScale year * 1000 * (12 / 10)) ∧
    (∀ (m : ℚ) (row : Row), row.Amazon_Strategy = Strategy.HD → m > 12 / 10 →
      adjustedAmzProfit "2025" m row
        = (row.Amazon_Profit * (60 / 100)
            - row.Amazon_Ad_Spend.getD 0 * (15 / 10) * 1000 * m) * (2 / 10)) ∧
    (∀ (m : ℚ) (row : Row),
      (processDataForYear [row] m row.Amazon_Strategy row.Flipkart_Strategy).map
          Cell.amazonProfit
        = some (adjustedAmzProfit row.Festival_Year m row * row.Demand_Probability)) := by
  have hformula : ∀ (year : String) (m : ℚ) (row : Row),
      adjustedAmzProfit year m row
        = (row.Amazon_Profit * getYearMultiplier year
            - row.Amazon_Ad_Spend.getD 0 * adSpendScale year * 1000 * m)
          * (if row.Amazon_Strategy = Strategy.HD then
              (if m > 12 / 10 then 4 / 10 else 1) * (if year = "2025" then 5 / 10 else 1)
             else 1) := by
    intro year m row
    unfold adjustedAmzProfit extraAdSpend
    by_cases hs : row.Amazon_Strategy = Strategy.HD <;> by_cases hm : m > 12 / 10 <;>
      by_cases hy : year = "2025" <;> simp only [hs, hm, hy, and_self, and_true, and_false,
        if_true, if_false, reduceCtorEq] <;> ring
  refine ⟨⟨?_, ?_, ?_, ?_, ?_, ?_⟩, ⟨?_, ?_⟩, hformula, ?_, ?_, ?_⟩
  · simp [getYearMultiplier]
  · simp [getYearMultiplier]
  · simp [getYearMultiplier]
  · simp [getYearMultiplier]
  · simp [getYearMultiplier]
  · intro year hyear
    simp only [List.mem_cons, List.mem_singleton, List.not_mem_nil, or_false, not_or] at hyear
    obtain ⟨h1, h2, h3, h4, h5⟩ := hyear
    simp [getYearMultiplier, h1, h2, h3, h4, h5]
  · simp [adSpendScale]
  · intro year hyear
    simp [adSpendScale, hyear]
  · intro year row hs hy
    rw [hformula]
    simp [hs, hy]
  · intro m row hs hm
    have h1 : getYearMultiplier "2025" = 60 / 100 := by simp [getYearMultiplier]
    have h2 : adSpendScale "2025" = 15 / 10 := by simp [adSpendScale]
    rw [hformula, if_pos hs, if_pos hm, if_pos rfl, h1, h2]
    ring
  · intro m row
    simp [processDataForYear, processRow, Matrix.empty]

theorem jointStep_foldl (value : StrategyPair → ℚ) (l : List StrategyPair) :
    ∀ (pre : List StrategyPair) (p : StrategyPair), IsFirstMax value pre p →
      ∃ q, l.foldl (fun st c => jointStep (value c) c st) (some (value p), some p)
          = (some (value q), some q)
        ∧ IsFirstMax value (pre ++ l) q := by
  induction l with
  | nil =>
    intro pre p hp
    exact ⟨p, rfl, by simpa using hp⟩
  | cons x l ih =>
    intro pre p hp
    obtain ⟨before, after, hpre, hlt, hle⟩ := hp
    by_cases hx : value x > value p
    · have hnew : IsFirstMax value (pre ++ [x]) x := by
        refine ⟨pre, [], rfl, ?_, by simp⟩
        intro c hc
        rw [hpre] at hc
        rcases List.mem_append.mp hc with hc | hc
        · exact lt_trans (hlt c hc) hx
        · rcases List.mem_cons.mp hc with hc | hc
          · rw [hc]; exact hx
          · exact lt_of_le_of_lt (hle c hc) hx
      obtain ⟨q, hq, hmax⟩ := ih (pre ++ [x]) x hnew
      refine ⟨q, ?_, by simpa using hmax⟩
      rw [List.foldl_cons]
      simpa [jointStep, hx] using hq
    · have hkeep : IsFirstMax value (pre ++ [x]) p := by
        refine ⟨before, after ++ [x], by simp [hpre], hlt, ?_⟩
        intro c hc
        rcases List.mem_append.mp hc with hc | hc
        · exact hle c hc
        · simp at hc; rw [hc]; exact not_lt.mp hx
      obtain ⟨q, hq, hmax⟩ := ih (pre ++ [x]) p hkeep
      refine ⟨q, ?_, by simpa using hmax⟩
      rw [List.foldl_cons]
      simpa [jointStep, hx] using hq

theorem find?_of_isFirstMax (value : StrategyPair → ℚ) (l : List StrategyPair)
    (q : StrategyPair) (h : IsFirstMax value l q) :
    l.find? (fun c => decide (∀ c' ∈ l, value c' ≤ value c)) = some q := by
  obtain ⟨before, after, hl, hlt, hle⟩ := h
  rw [List.find?_eq_some]
  refine ⟨?_, before, after, hl, ?_⟩
  · simp only [decide_eq_true_eq]
    intro c hc
    rw [hl] at hc
    rcases List.mem_append.mp hc with hc | hc
    · exact (hlt c hc).le
    · rcases List.mem_cons.mp hc with hc | hc
      · rw [hc]
      · exact hle c hc
  · intro c hc
    simp only [Bool.not_eq_true', decide_eq_false_iff_not]
    intro hall
    have hq : q ∈ l := by rw [hl]; simp
    exact absurd (hall q hq) (not_le.mpr (hlt c hc))

theorem socialOptimumScan_full (cells : Strategy → Strategy → Cell) :
    ∃ so, socialOptimumScan (Matrix.full cells) = some (some so)
      ∧ socialOptimum cells = some so := by
  have hscan : socialOptimumScan (Matrix.full cells)
      = some (rowMajorCells.foldl (fun st c => jointStep (jointProfit cells c) c st)
          ((none, none) : Option ℚ × Option StrategyPair)).2 := by
    have hinner : ∀ (st : Option ℚ × Option StrategyPair) (amz : Strategy),
        STRATEGIES.foldlM
            (fun st flip =>
              (Matrix.full cells amz flip).map (fun cell =>
                jointStep (cell.amazonProfit + cell.flipkartProfit)
                  { amazon := amz, flipkart := flip } st))
            st
          = some (STRATEGIES.foldl
              (fun st flip => jointStep (jointProfit cells { amazon := amz, flipkart := flip })
                { amazon := amz, flipkart := flip } st) st) :=
      fun st amz => foldlM_eq_some _ _ (fun _ _ => rfl) STRATEGIES st
    unfold socialOptimumScan
    rw [foldlM_eq_some _ _ hinner]
    rfl
  obtain ⟨q, hq, hmax⟩ := jointStep_foldl (jointProfit cells) rowMajorCells.tail
    [{ amazon := Strategy.HD, flipkart := Strategy.HD }]
    { amazon := Strategy.HD, flipkart := Strategy.HD }
    ⟨[], [], rfl, by simp, by simp⟩
  refine ⟨q, ?_, find?_of_isFirstMax (jointProfit cells) rowMajorCells q hmax⟩
  rw [hscan]
  have hstart : rowMajorCells.foldl (fun st c => jointStep (jointProfit cells c) c st)
        ((none, none) : Option ℚ × Option StrategyPair)
      = rowMajorCells.tail.foldl (fun st c => jointStep (jointProfit cells c) c st)
          (some (jointProfit cells { amazon := Strategy.HD, flipkart := Strategy.HD }),
            some { amazon := Strategy.HD, flipkart := Strategy.HD }) := rfl
  rw [hstart, hq]

theorem pair_eq_iff (p q : StrategyPair) :
    (decide (p.amazon = q.amazon) && decide (p.flipkart = q.flipkart)) = true ↔ p = q := by
  obtain ⟨pa, pf⟩ := p
  obtain ⟨qa, qf⟩ := q
  simp

theorem classifyGameStructure_full (cells : Strategy → Strategy → Cell) (an : Analysis)
    (so : StrategyPair) (hso : socialOptimumScan (Matrix.full cells) = some (some so))
    (primaryNash : StrategyPair) (rest : List StrategyPair)
    (hne : an.nashEquilibria = primaryNash :: rest) :
    classifyGameStructure (some (Matrix.full cells)) (some an)
      = some (if primaryNash = so then "Coordination Game"
              else if an.amazonDominant.isSome && an.flipkartDominant.isSome
                then "Prisoner\x27s Dilemma"
              else "Competitive Margin Game") := by
  simp only [classifyGameStructure, hne, hso]
  by_cases heq : primaryNash = so
  · simp [heq]
  · have hdec : (decide (primaryNash.amazon = so.amazon)
        && decide (primaryNash.flipkart = so.flipkart)) = false := by
      rw [Bool.eq_false_iff]
      exact fun h => heq ((pair_eq_iff _ _).mp h)
    simp [heq, hdec]
    split_ifs <;> rfl

/-- C9: for a fully populated matrix and `analysis = analyzeGame(matrix)`,
`classifyGameStructure(matrix, analysis)` returns "Coordination Game" exactly when
`nashEquilibria` is non-empty and its first element is the social optimum, the first cell in
row-major order attaining the maximum joint profit over the nine cells. -/
theorem classifyGameStructure_coordination_iff (cells : Strategy → Strategy → Cell) :
    ∃ an, analyzeGame (Matrix.full cells) = some an ∧
      (classifyGameStructure (some (Matrix.full cells)) (some an) = some "Coordination Game" ↔
        an.nashEquilibria ≠ [] ∧ an.nashEquilibria.head? = socialOptimum cells) := by
  refine ⟨_, analyzeGame_full cells, ?_⟩
  obtain ⟨so, hscan, hso⟩ := socialOptimumScan_full cells
  generalize hne : findNash (bestReplies (amazonPayoff cells))
    (bestReplies (flipkartPayoff cells)) = ne
  cases ne with
  | nil => simp [classifyGameStructure]
  | cons primaryNash rest =>
    rw [classifyGameStructure_full cells _ so hscan primaryNash rest rfl, hso]
    by_cases heq : primaryNash = so
    · simp [heq]
    · simp only [if_neg heq, Option.some.injEq, List.head?_cons, ne_eq, reduceCtorEq,
        not_false_eq_true, true_and]
      constructor
      · intro h
        split_ifs at h <;> simp at h
      · intro h
        exact absurd h heq

/-- C10: for a fully populated matrix and every analysis, `classifyGameStructure` returns
"Prisoner's Dilemma" exactly when `nashEquilibria` is non-empty, its first element differs
from the social optimum (the first row-major maximiser of the joint profit), and both
`amazonDominant` and `flipkartDominant` are non-null. -/
theorem classifyGameStructure_prisoners_iff (cells : Strategy → Strategy → Cell)
    (an : Analysis) :
    classifyGameStructure (some (Matrix.full cells)) (some an)
        = some "Prisoner\x27s Dilemma" ↔
      an.nashEquilibria ≠ [] ∧ an.nashEquilibria.head? ≠ socialOptimum cells ∧
        an.amazonDominant ≠ none ∧ an.flipkartDominant ≠ none := by
  obtain ⟨so, hscan, hso⟩ := socialOptimumScan_full cells
  cases hne : an.nashEquilibria with
  | nil => simp [classifyGameStructure, hne]
  | cons primaryNash rest =>
    rw [classifyGameStructure_full cells an so hscan primaryNash rest hne, hso]
    by_cases heq : primaryNash = so
    · simp [heq]
    · cases hA : an.amazonDominant <;> cases hF : an.flipkartDominant <;> simp [heq]

theorem bestReplies_amazon_scenarioA :
    bestReplies (amazonPayoff scenarioA) = fun opp =>
      match opp with
      | Strategy.HD => [Strategy.MD]
      | Strategy.MD => [Strategy.MD]
      | Strategy.LD => [Strategy.HD, Strategy.MD, Strategy.LD] := by
  funext opp
  cases opp <;>
    simp [bestReplies, STRATEGIES, List.filter_cons, forall_strategy, amazonPayoff, scenarioA] <;>
    norm_num

theorem bestReplies_flipkart_scenarioA :
    bestReplies (flipkartPayoff scenarioA) = fun opp =>
      match opp with
      | Strategy.HD => [Strategy.MD]
      | Strategy.MD => [Strategy.MD]
      | Strategy.LD => [Strategy.HD, Strategy.MD, Strategy.LD] := by
  funext opp
  cases opp <;>
    simp [bestReplies, STRATEGIES, List.filter_cons, forall_strategy, flipkartPayoff, scenarioA] <;>
    norm_num

theorem findNash_scenarioA :
    findNash (bestReplies (amazonPayoff scenarioA)) (bestReplies (flipkartPayoff scenarioA))
      = [{ amazon := Strategy.MD, flipkart := Strategy.MD },
         { amazon := Strategy.LD, flipkart := Strategy.LD }] := by
  rw [bestReplies_amazon_scenarioA, bestReplies_flipkart_scenarioA]
  rfl

theorem socialOptimum_scenarioA :
    socialOptimum scenarioA = some { amazon := Strategy.MD, flipkart := Strategy.MD } := by
  simp [socialOptimum, rowMajorCells, List.find?_cons, jointProfit, scenarioA]
  norm_num

theorem socialOptimumScan_scenarioA :
    socialOptimumScan (Matrix.full scenarioA)
      = some (some { amazon := Strategy.MD, flipkart := Strategy.MD }) := by
  obtain ⟨so, hscan, hso⟩ := socialOptimumScan_full scenarioA
  rw [socialOptimum_scenarioA] at hso
  rw [hscan, Option.some.inj hso]

/-- C11: `classifyGameStructure` returns "Undetermined" exactly when the matrix or the
analysis argument is missing; for every present fully populated matrix and analysis it returns
one of the three labels "Competitive Margin Game", "Coordination Game" and "Prisoner's
Dilemma", each of which is returned on some input; and it returns "Competitive Margin Game"
whenever `nashEquilibria` is empty. -/
theorem classifyGameStructure_labels :
    (∀ (matrix : Option Matrix) (analysis : Option Analysis),
      classifyGameStructure matrix analysis = some "Undetermined" ↔
        matrix = none ∨ analysis = none) ∧
    (∀ (cells : Strategy → Strategy → Cell) (an : Analysis),
      classifyGameStructure (some (Matrix.full cells)) (some an)
          = some "Competitive Margin Game" ∨
      classifyGameStructure (some (Matrix.full cells)) (some an) = some "Coordination Game" ∨
      classifyGameStructure (some (Matrix.full cells)) (some an)
          = some "Prisoner\x27s Dilemma") ∧
    (∀ (matrix : Matrix) (an : Analysis), an.nashEquilibria = [] →
      classifyGameStructure (some matrix) (some an) = some "Competitive Margin Game") ∧
    (∃ (cells : Strategy → Strategy → Cell) (an : Analysis),
      classifyGameStructure (some (Matrix.full cells)) (some an) = some "Coordination Game") ∧
    (∃ (cells : Strategy → Strategy → Cell) (an : Analysis),
      classifyGameStructure (some (Matrix.full cells)) (some an)
        = some "Prisoner\x27s Dilemma") := by
  refine ⟨?_, ?_, ?_, ?_, ?_⟩
  · intro matrix analysis
    cases matrix with
    | none => simp [classifyGameStructure]
    | some matrix =>
      cases analysis with
      | none => simp [classifyGameStructure]
      | some an =>
        simp only [classifyGameStructure, reduceCtorEq, or_self, iff_false]
        cases an.nashEquilibria with
        | nil => simp
        | cons primaryNash rest =>
          cases socialOptimumScan matrix with
          | none => simp
          | some so =>
            simp only [Option.bind_eq_bind, Option.some_bind]
            split_ifs <;> simp
  · intro cells an
    obtain ⟨so, hscan, _⟩ := socialOptimumScan_full cells
    cases hne : an.nashEquilibria with
    | nil => left; simp [classifyGameStructure, hne]
    | cons primaryNash rest =>
      rw [classifyGameStructure_full cells an so hscan primaryNash rest hne]
      split_ifs
      · right; left; rfl
      · right; right; rfl
      · left; rfl
  · intro matrix an hne
    simp [classifyGameStructure, hne]
  · refine ⟨scenarioA,
      { nashEquilibria := [{ amazon := Strategy.MD, flipkart := Strategy.MD }]
        amazonDominant := none
        flipkartDominant := none
        amazonBestResponses := fun _ => []
        flipkartBestResponses := fun _ => [] }, ?_⟩
    rw [classifyGameStructure_full scenarioA _ _ socialOptimumScan_scenarioA _ [] rfl]
    simp
  · refine ⟨scenarioA,
      { nashEquilibria := [{ amazon := Strategy.HD, flipkart := Strategy.HD }]
        amazonDominant := some Strategy.HD
        flipkartDominant := some Strategy.HD
        amazonBestResponses := fun _ => []
        flipkartBestResponses := fun _ => [] }, ?_⟩
    rw [classifyGameStructure_full scenarioA _ _ socialOptimumScan_scenarioA _ [] rfl]
    simp

/-- C12 (as stated, refuted): on the Scenario A matrix with zero LD cells the list of
equilibria returned by `analyzeGame` is not the single entry (MD, MD). -/
theorem analyzeGame_scenarioA_not_unique :
    ¬ ∃ an, analyzeGame (Matrix.full scenarioA) = some an ∧
      an.nashEquilibria = [{ amazon := Strategy.MD, flipkart := Strategy.MD }] := by
  rintro ⟨an, han, hne⟩
  rw [analyzeGame_full] at han
  have h := Option.some.inj han
  rw [← h] at hne
  simp only [findNash_scenarioA] at hne
  simp at hne

/-- C12 (amended): on the Scenario A matrix with zero LD cells `analyzeGame` returns exactly two
Nash equilibria: (MD, MD), listed first, and the all-zero cell (LD, LD). -/
theorem analyzeGame_scenarioA_nash :
    ∃ an, analyzeGame (Matrix.full scenarioA) = some an ∧
      an.nashEquilibria = [{ amazon := Strategy.MD, flipkart := Strategy.MD },
                           { amazon := Strategy.LD, flipkart := Strategy.LD }] :=
  ⟨_, analyzeGame_full scenarioA, findNash_scenarioA⟩

/-- C13: on the Scenario A matrix with zero LD cells,
`classifyGameStructure(matrix, analyzeGame(matrix))` returns "Coordination Game". -/
theorem classifyGameStructure_scenarioA :
    ∃ an, analyzeGame (Matrix.full scenarioA) = some an ∧
      classifyGameStructure (some (Matrix.full scenarioA)) (some an)
        = some "Coordination Game" := by
  refine ⟨_, analyzeGame_full scenarioA, ?_⟩
  rw [classifyGameStructure_full scenarioA _ _ socialOptimumScan_scenarioA
    { amazon := Strategy.MD, flipkart := Strategy.MD }
    [{ amazon := Strategy.LD, flipkart := Strategy.LD }] findNash_scenarioA]
  simp

theorem calculateMixedStrategy_full_pure (cells : Strategy → Strategy → Cell) (an : Analysis)
    (han : analyzeGame (Matrix.full cells) = some an) (hne : an.nashEquilibria ≠ []) :
    calculateMixedStrategy (Matrix.full cells) = some
      { hasPureNash := true
        pureNashEquilibria := some an.nashEquilibria
        amazonMixing := none
        flipkartMixing := none
        expectedPayoffs := none
        support := none
        recommendation :=
          "Pure strategy Nash equilibrium exists. Mixed strategy solution not required." } := by
  have hlen : an.nashEquilibria.length > 0 := List.length_pos.mpr hne
  unfold calculateMixedStrategy
  rw [han]
  simp [hlen]

theorem calculateMixedStrategy_full_mixed (cells : Strategy → Strategy → Cell) (an : Analysis)
    (han : analyzeGame (Matrix.full cells) = some an) (hne : an.nashEquilibria = []) :
    calculateMixedStrategy (Matrix.full cells) = some
      (mixedStrategyOfCells (cells Strategy.HD Strategy.HD) (cells Strategy.MD Strategy.HD)
        (cells Strategy.HD Strategy.MD) (cells Strategy.MD Strategy.MD)) := by
  unfold calculateMixedStrategy
  rw [han]
  simp [hne, Matrix.full]

theorem clampUnit_bounds (x : ℚ) : 0 ≤ clampUnit x ∧ clampUnit x ≤ 1 := by
  unfold clampUnit
  exact ⟨le_max_left _ _, max_le zero_le_one (min_le_left _ _)⟩

theorem clampUnit_of_mem (x : ℚ) (h0 : 0 ≤ x) (h1 : x ≤ 1) : clampUnit x = x := by
  unfold clampUnit
  rw [min_eq_right h1, max_eq_right h0]

theorem solveMix_bounds (numer denom : ℚ) :
    0 ≤ solveMix numer denom ∧ solveMix numer denom ≤ 1 :=
  clampUnit_bounds _

theorem solveMix_eq (numer denom : ℚ) :
    solveMix numer denom
      = if denom = 0 then 1 / 2 else max 0 (min 1 (numer / denom)) := by
  unfold solveMix clampUnit
  by_cases h : denom = 0
  · simp only [h, ne_eq, not_true_eq_false, if_false, if_true]
    norm_num
  · simp only [h, ne_eq, not_false_eq_true, if_true, if_false]

theorem analyzeGame_pennies :
    ∃ an, analyzeGame (Matrix.full pennies) = some an ∧ an.nashEquilibria = [] := by
  refine ⟨_, analyzeGame_full pennies, ?_⟩
  have hA : bestReplies (amazonPayoff pennies) = fun opp =>
      match opp with
      | Strategy.HD => [Strategy.HD]
      | Strategy.MD => [Strategy.MD]
      | Strategy.LD => [Strategy.HD, Strategy.MD] := by
    funext opp
    cases opp <;>
      simp [bestReplies, STRATEGIES, List.filter_cons, forall_strategy, amazonPayoff, pennies] <;>
      norm_num
  have hF : bestReplies (flipkartPayoff pennies) = fun opp =>
      match opp with
      | Strategy.HD => [Strategy.MD]
      | Strategy.MD => [Strategy.HD]
      | Strategy.LD => [Strategy.HD, Strategy.MD] := by
    funext opp
    cases opp <;>
      simp [bestReplies, STRATEGIES, List.filter_cons, forall_strategy, flipkartPayoff, pennies] <;>
      norm_num
  show findNash (bestReplies (amazonPayoff pennies))
    (bestReplies (flipkartPayoff pennies)) = []
  rw [hA, hF]
  rfl

/-- C14: for a fully populated matrix, `calculateMixedStrategy(matrix).hasPureNash` is true
exactly when `analyzeGame(matrix).nashEquilibria` is non-empty; when true the result carries
`pureNashEquilibria` equal to that list and no mixing probabilities, when false it carries
`support = [HD, MD]`, `amazonMixing`, `flipkartMixing` and `expectedPayoffs`. -/
theorem calculateMixedStrategy_hasPureNash_iff (cells : Strategy → Strategy → Cell) :
    ∃ an res, analyzeGame (Matrix.full cells) = some an ∧
      calculateMixedStrategy (Matrix.full cells) = some res ∧
      (res.hasPureNash = true ↔ an.nashEquilibria ≠ []) ∧
      (res.hasPureNash = true →
        res.pureNashEquilibria = some an.nashEquilibria ∧ res.amazonMixing = none ∧
        res.flipkartMixing = none ∧ res.expectedPayoffs = none ∧ res.support = none) ∧
      (res.hasPureNash = false →
        res.support = some [Strategy.HD, Strategy.MD] ∧ res.amazonMixing.isSome = true ∧
        res.flipkartMixing.isSome = true ∧ res.expectedPayoffs.isSome = true ∧
        res.pureNashEquilibria = none) := by
  obtain ⟨an, han⟩ : ∃ an, analyzeGame (Matrix.full cells) = some an :=
    ⟨_, analyzeGame_full cells⟩
  by_cases hne : an.nashEquilibria = []
  · refine ⟨an, _, han, calculateMixedStrategy_full_mixed cells an han hne, ?_, ?_, ?_⟩
    · simp [mixedStrategyOfCells, hne]
    · intro h; simp [mixedStrategyOfCells] at h
    · intro _; simp [mixedStrategyOfCells]
  · refine ⟨an, _, han, calculateMixedStrategy_full_pure cells an han hne, ?_, ?_, ?_⟩
    · simp [hne]
    · intro _; simp
    · intro h; simp at h

/-- C15: for a fully populated matrix with no pure Nash equilibrium, `amazonMixing` and
`flipkartMixing` returned by `calculateMixedStrategy` each assign LD exactly 0, assign HD and
MD values in `[0, 1]`, and have their three values sum to 1. -/
theorem calculateMixedStrategy_mixing_is_distribution (cells : Strategy → Strategy → Cell)
    (hno : ∃ an, analyzeGame (Matrix.full cells) = some an ∧ an.nashEquilibria = []) :
    ∃ res am fm, calculateMixedStrategy (Matrix.full cells) = some res ∧
      res.amazonMixing = some am ∧ res.flipkartMixing = some fm ∧
      (am Strategy.LD = 0 ∧ 0 ≤ am Strategy.HD ∧ am Strategy.HD ≤ 1 ∧
        0 ≤ am Strategy.MD ∧ am Strategy.MD ≤ 1 ∧
        am Strategy.HD + am Strategy.MD + am Strategy.LD = 1) ∧
      (fm Strategy.LD = 0 ∧ 0 ≤ fm Strategy.HD ∧ fm Strategy.HD ≤ 1 ∧
        0 ≤ fm Strategy.MD ∧ fm Strategy.MD ≤ 1 ∧
        fm Strategy.HD + fm Strategy.MD + fm Strategy.LD = 1) := by
  obtain ⟨an, han, hne⟩ := hno
  refine ⟨_, _, _, calculateMixedStrategy_full_mixed cells an han hne, rfl, rfl, ?_, ?_⟩
  · simp only [reduceCtorEq, if_false, if_true]
    exact ⟨trivial, (solveMix_bounds _ _).1, (solveMix_bounds _ _).2,
      sub_nonneg.mpr (solveMix_bounds _ _).2, sub_le_self 1 (solveMix_bounds _ _).1, by ring⟩
  · simp only [reduceCtorEq, if_false, if_true]
    exact ⟨trivial, (solveMix_bounds _ _).1, (solveMix_bounds _ _).2,
      sub_nonneg.mpr (solveMix_bounds _ _).2, sub_le_self 1 (solveMix_bounds _ _).1, by ring⟩

/-- C15 (instance): the matching-pennies matrix `pennies` has no pure equilibrium, and both
mixings are `(1/2, 1/2, 0)`. -/
theorem calculateMixedStrategy_mixing_is_distribution_witness :
    (∃ an, analyzeGame (Matrix.full pennies) = some an ∧ an.nashEquilibria = []) ∧
    ∃ res am fm, calculateMixedStrategy (Matrix.full pennies) = some res ∧
      res.amazonMixing = some am ∧ res.flipkartMixing = some fm ∧
      (am Strategy.LD = 0 ∧ 0 ≤ am Strategy.HD ∧ am Strategy.HD ≤ 1 ∧
        0 ≤ am Strategy.MD ∧ am Strategy.MD ≤ 1 ∧
        am Strategy.HD + am Strategy.MD + am Strategy.LD = 1) ∧
      (fm Strategy.LD = 0 ∧ 0 ≤ fm Strategy.HD ∧ fm Strategy.HD ≤ 1 ∧
        0 ≤ fm Strategy.MD ∧ fm Strategy.MD ≤ 1 ∧
        fm Strategy.HD + fm Strategy.MD + fm Strategy.LD = 1) :=
  ⟨analyzeGame_pennies,
    calculateMixedStrategy_mixing_is_distribution pennies analyzeGame_pennies⟩

/-- C16: for a fully populated matrix with no pure Nash equilibrium, with `F` the
`flipkartProfit` and `A` the `amazonProfit` of the cells, `amazonMixing[HD]` is
`(F(MD,MD) - F(MD,HD)) / (F(HD,HD) - F(MD,HD) - F(HD,MD) + F(MD,MD))` clamped to `[0, 1]`,
and 0.5 when that denominator is 0; `flipkartMixing[HD]` is
`(A(MD,MD) - A(HD,MD)) / (A(HD,HD) - A(HD,MD) - A(MD,HD) + A(MD,MD))` clamped to `[0, 1]`,
and 0.5 when that denominator is 0.  The computation returns a result on every such input. -/
theorem calculateMixedStrategy_mix_formula (cells : Strategy → Strategy → Cell)
    (hno : ∃ an, analyzeGame (Matrix.full cells) = some an ∧ an.nashEquilibria = []) :
    ∃ res am fm, calculateMixedStrategy (Matrix.full cells) = some res ∧
      res.amazonMixing = some am ∧ res.flipkartMixing = some fm ∧
      am Strategy.HD
        = (if (cells Strategy.HD Strategy.HD).flipkartProfit
                - (cells Strategy.MD Strategy.HD).flipkartProfit
                - (cells Strategy.HD Strategy.MD).flipkartProfit
                + (cells Strategy.MD Strategy.MD).flipkartProfit = 0
           then 1 / 2
           else max 0 (min 1
            (((cells Strategy.MD Strategy.MD).flipkartProfit
                - (cells Strategy.MD Strategy.HD).flipkartProfit)
              / ((cells Strategy.HD Strategy.HD).flipkartProfit
                - (cells Strategy.MD Strategy.HD).flipkartProfit
                - (cells Strategy.HD Strategy.MD).flipkartProfit
                + (cells Strategy.MD Strategy.MD).flipkartProfit)))) ∧
      fm Strategy.HD
        = (if (cells Strategy.HD Strategy.HD).amazonProfit
                - (cells Strategy.HD Strategy.MD).amazonProfit
                - (cells Strategy.MD Strategy.HD).amazonProfit
                + (cells Strategy.MD Strategy.MD).amazonProfit = 0
           then 1 / 2
           else max 0 (min 1
            (((cells Strategy.MD Strategy.MD).amazonProfit
                - (cells Strategy.HD Strategy.MD).amazonProfit)
              / ((cells Strategy.HD Strategy.HD).amazonProfit
                - (cells Strategy.HD Strategy.MD).amazonProfit
                - (cells Strategy.MD Strategy.HD).amazonProfit
                + (cells Strategy.MD Strategy.MD).amazonProfit)))) := by
  obtain ⟨an, han, hne⟩ := hno
  refine ⟨_, _, _, calculateMixedStrategy_full_mixed cells an han hne, rfl, rfl, ?_, ?_⟩
  · simp only [if_true]
    exact solveMix_eq _ _
  · simp only [if_true]
    exact solveMix_eq _ _

/-- C16 (instance): on `pennies` both denominators are non-zero and both probabilities are
`1/2`. -/
theorem calculateMixedStrategy_mix_formula_witness :
    (∃ an, analyzeGame (Matrix.full pennies) = some an ∧ an.nashEquilibria = []) ∧
    ∃ res am fm, calculateMixedStrategy (Matrix.full pennies) = some res ∧
      res.amazonMixing = some am ∧ res.flipkartMixing = some fm ∧
      am Strategy.HD = 1 / 2 ∧ fm Strategy.HD = 1 / 2 := by
  refine ⟨analyzeGame_pennies, ?_⟩
  obtain ⟨res, am, fm, hres, ham, hfm, hp, hq⟩ :=
    calculateMixedStrategy_mix_formula pennies analyzeGame_pennies
  refine ⟨res, am, fm, hres, ham, hfm, ?_, ?_⟩
  · rw [hp]; norm_num [pennies]
  · rw [hq]; norm_num [pennies]

theorem solveMix_mul_denom (numer denom : ℚ) (hd : denom ≠ 0) (h0 : 0 ≤ numer / denom)
    (h1 : numer / denom ≤ 1) : solveMix numer denom * denom = numer := by
  unfold solveMix
  rw [if_pos hd, clampUnit_of_mem _ h0 h1]
  exact div_mul_cancel₀ numer hd

/-- C17: for a fully populated matrix with no pure Nash equilibrium whose player-two
indifference denominator is non-zero and whose unclamped solution lies in `[0, 1]`,
`p = amazonMixing[HD]` makes player two indifferent between HD and MD; under the symmetric
hypotheses `q = flipkartMixing[HD]` makes player one indifferent between HD and MD. -/
theorem calculateMixedStrategy_indifference (cells : Strategy → Strategy → Cell)
    (hno : ∃ an, analyzeGame (Matrix.full cells) = some an ∧ an.nashEquilibria = []) :
    ∃ res am fm, calculateMixedStrategy (Matrix.full cells) = some res ∧
      res.amazonMixing = some am ∧ res.flipkartMixing = some fm ∧
      ((cells Strategy.HD Strategy.HD).flipkartProfit
            - (cells Strategy.MD Strategy.HD).flipkartProfit
            - (cells Strategy.HD Strategy.MD).flipkartProfit
            + (cells Strategy.MD Strategy.MD).flipkartProfit ≠ 0 →
        0 ≤ ((cells Strategy.MD Strategy.MD).flipkartProfit
              - (cells Strategy.MD Strategy.HD).flipkartProfit)
            / ((cells Strategy.HD Strategy.HD).flipkartProfit
              - (cells Strategy.MD Strategy.HD).flipkartProfit
              - (cells Strategy.HD Strategy.MD).flipkartProfit
              + (cells Strategy.MD Strategy.MD).flipkartProfit) →
        ((cells Strategy.MD Strategy.MD).flipkartProfit
              - (cells Strategy.MD Strategy.HD).flipkartProfit)
            / ((cells Strategy.HD Strategy.HD).flipkartProfit
              - (cells Strategy.MD Strategy.HD).flipkartProfit
              - (cells Strategy.HD Strategy.MD).flipkartProfit
              + (cells Strategy.MD Strategy.MD).flipkartProfit) ≤ 1 →
        am Strategy.HD * (cells Strategy.HD Strategy.HD).flipkartProfit
            + (1 - am Strategy.HD) * (cells Strategy.MD Strategy.HD).flipkartProfit
          = am Strategy.HD * (cells Strategy.HD Strategy.MD).flipkartProfit
            + (1 - am Strategy.HD) * (cells Strategy.MD Strategy.MD).flipkartProfit) ∧
      ((cells Strategy.HD Strategy.HD).amazonProfit
            - (cells Strategy.HD Strategy.MD).amazonProfit
            - (cells Strategy.MD Strategy.HD).amazonProfit
            + (cells Strategy.MD Strategy.MD).amazonProfit ≠ 0 →
        0 ≤ ((cells Strategy.MD Strategy.MD).amazonProfit
              - (cells Strategy.HD Strategy.MD).amazonProfit)
            / ((cells Strategy.HD Strategy.HD).amazonProfit
              - (cells Strategy.HD Strategy.MD).amazonProfit
              - (cells Strategy.MD Strategy.HD).amazonProfit
              + (cells Strategy.MD Strategy.MD).amazonProfit) →
        ((cells Strategy.MD Strategy.MD).amazonProfit
              - (cells Strategy.HD Strategy.MD).amazonProfit)
            / ((cells Strategy.HD Strategy.HD).amazonProfit
              - (cells Strategy.HD Strategy.MD).amazonProfit
              - (cells Strategy.MD Strategy.HD).amazonProfit
              + (cells Strategy.MD Strategy.MD).amazonProfit) ≤ 1 →
        fm Strategy.HD * (cells Strategy.HD Strategy.HD).amazonProfit
            + (1 - fm Strategy.HD) * (cells Strategy.HD Strategy.MD).amazonProfit
          = fm Strategy.HD * (cells Strategy.MD Strategy.HD).amazonProfit
            + (1 - fm Strategy.HD) * (cells Strategy.MD Strategy.MD).amazonProfit) := by
  obtain ⟨an, han, hne⟩ := hno
  refine ⟨_, _, _, calculateMixedStrategy_full_mixed cells an han hne, rfl, rfl, ?_, ?_⟩
  · intro hd h0 h1
    have hmul := solveMix_mul_denom _ _ hd h0 h1
    simp only [if_true]
    linear_combination hmul
  · intro hd h0 h1
    have hmul := solveMix_mul_denom _ _ hd h0 h1
    simp only [if_true]
    linear_combination hmul

/-- C17 (instance): on `pennies` both denominators are `-4`, both unclamped solutions are
`1/2`, and both indifference equations hold. -/
theorem calculateMixedStrategy_indifference_witness :
    (∃ an, analyzeGame (Matrix.full pennies) = some an ∧ an.nashEquilibria = []) ∧
    ∃ res am fm, calculateMixedStrategy (Matrix.full pennies) = some res ∧
      res.amazonMixing = some am ∧ res.flipkartMixing = some fm ∧
      am Strategy.HD * (pennies Strategy.HD Strategy.HD).flipkartProfit
          + (1 - am Strategy.HD) * (pennies Strategy.MD Strategy.HD).flipkartProfit
        = am Strategy.HD * (pennies Strategy.HD Strategy.MD).flipkartProfit
          + (1 - am Strategy.HD) * (pennies Strategy.MD Strategy.MD).flipkartProfit ∧
      fm Strategy.HD * (pennies Strategy.HD Strategy.HD).amazonProfit
          + (1 - fm Strategy.HD) * (pennies Strategy.HD Strategy.MD).amazonProfit
        = fm Strategy.HD * (pennies Strategy.MD Strategy.HD).amazonProfit
          + (1 - fm Strategy.HD) * (pennies Strategy.MD Strategy.MD).amazonProfit := by
  refine ⟨analyzeGame_pennies, ?_⟩
  obtain ⟨res, am, fm, hres, ham, hfm, hp, hq⟩ :=
    calculateMixedStrategy_indifference pennies analyzeGame_pennies
  exact ⟨res, am, fm, hres, ham, hfm,
    hp (by norm_num [pennies]) (by norm_num [pennies]) (by norm_num [pennies]),
    hq (by norm_num [pennies]) (by norm_num [pennies]) (by norm_num [pennies])⟩

/-- C18: for a fully populated matrix with no pure Nash equilibrium, with
`p = amazonMixing[HD]` and `q = flipkartMixing[HD]`, `expectedPayoffs.amazon` is
`p q A(HD,HD) + p (1-q) A(HD,MD) + (1-p) q A(MD,HD) + (1-p)(1-q) A(MD,MD)` and
`expectedPayoffs.flipkart` is the same expression over `flipkartProfit`. -/
theorem calculateMixedStrategy_expectedPayoffs (cells : Strategy → Strategy → Cell)
    (hno : ∃ an, analyzeGame (Matrix.full cells) = some an ∧ an.nashEquilibria = []) :
    ∃ res am fm ep, calculateMixedStrategy (Matrix.full cells) = some res ∧
      res.amazonMixing = some am ∧ res.flipkartMixing = some fm ∧
      res.expectedPayoffs = some ep ∧
      ep.amazon
        = am Strategy.HD * fm Strategy.HD * (cells Strategy.HD Strategy.HD).amazonProfit
          + am Strategy.HD * (1 - fm Strategy.HD) * (cells Strategy.HD Strategy.MD).amazonProfit
          + (1 - am Strategy.HD) * fm Strategy.HD * (cells Strategy.MD Strategy.HD).amazonProfit
          + (1 - am Strategy.HD) * (1 - fm Strategy.HD)
            * (cells Strategy.MD Strategy.MD).amazonProfit ∧
      ep.flipkart
        = am Strategy.HD * fm Strategy.HD * (cells Strategy.HD Strategy.HD).flipkartProfit
          + am Strategy.HD * (1 - fm Strategy.HD)
            * (cells Strategy.HD Strategy.MD).flipkartProfit
          + (1 - am Strategy.HD) * fm Strategy.HD
            * (cells Strategy.MD Strategy.HD).flipkartProfit
          + (1 - am Strategy.HD) * (1 - fm Strategy.HD)
            * (cells Strategy.MD Strategy.MD).flipkartProfit := by
  obtain ⟨an, han, hne⟩ := hno
  exact ⟨_, _, _, _, calculateMixedStrategy_full_mixed cells an han hne, rfl, rfl, rfl,
    rfl, rfl⟩

/-- C18 (instance): on `pennies`, with `p = q = 1/2`, both expected payoffs are 0. -/
theorem calculateMixedStrategy_expectedPayoffs_witness :
    (∃ an, analyzeGame (Matrix.full pennies) = some an ∧ an.nashEquilibria = []) ∧
    ∃ res ep, calculateMixedStrategy (Matrix.full pennies) = some res ∧
      res.expectedPayoffs = some ep ∧ ep.amazon = 0 ∧ ep.flipkart = 0 := by
  refine ⟨analyzeGame_pennies, ?_⟩
  obtain ⟨res, am, fm, ep, hres, ham, hfm, hep, hA, hF⟩ :=
    calculateMixedStrategy_expectedPayoffs pennies analyzeGame_pennies
  obtain ⟨an, han, hne⟩ := analyzeGame_pennies
  have hmixed := calculateMixedStrategy_full_mixed pennies an han hne
  rw [hmixed] at hres
  have hres2 := Option.some.inj hres
  subst hres2
  have ham2 := Option.some.inj ham
  have hfm2 := Option.some.inj hfm
  subst ham2
  subst hfm2
  refine ⟨_, ep, hmixed, hep, ?_, ?_⟩
  · rw [hA]; norm_num [solveMix, clampUnit, pennies]
  · rw [hF]; norm_num [solveMix, clampUnit, pennies]

theorem processDataForYear_full_of_all_pairs (rows : List Row) (m : ℚ)
    (hall : ∀ a b, ∃ r ∈ rows, r.Amazon_Strategy = a ∧ r.Flipkart_Strategy = b) :
    ∃ cells, processDataForYear rows m = Matrix.full cells := by
  have hsome : ∀ a b, ∃ c, processDataForYear rows m a b = some c := by
    intro a b
    have hnil : ¬ rows.filter (Row.hasPair a b) = [] := by
      rw [List.filter_eq_nil_iff]
      obtain ⟨r, hr, h1, h2⟩ := hall a b
      intro h
      exact h r hr (by simp [Row.hasPair, h1, h2])
    cases rows with
    | nil => simp at hnil
    | cons first rest =>
      simp only [processDataForYear]
      rw [foldl_processRow_apply, if_neg hnil]
      exact ⟨_, rfl⟩
  refine ⟨fun a b => (processDataForYear rows m a b).getD zeroCell, ?_⟩
  funext a b
  obtain ⟨c, hc⟩ := hsome a b
  simp [Matrix.full, hc]

theorem rowsOfYear_shiftData : rowsOfYear shiftData "2021" = shiftData := by
  simp [rowsOfYear, shiftData]

theorem processDataForYear_shiftData (m : ℚ) (hm : ¬ m > 12 / 10) :
    processDataForYear shiftData m = Matrix.full (shiftCells m) := by
  funext a b
  cases a <;> cases b <;>
    simp [processDataForYear, shiftData, processRow, Matrix.empty, Matrix.full, shiftCells,
      adjustedAmzProfit, extraAdSpend, adSpendScale, getYearMultiplier, baseFlipProfit, hm]

theorem bestReplies_flipkart_shiftCells (m : ℚ) (opp : Strategy) :
    bestReplies (flipkartPayoff (shiftCells m)) opp = [Strategy.MD] := by
  simp [bestReplies, STRATEGIES, List.filter_cons, forall_strategy, flipkartPayoff, shiftCells]
  norm_num

theorem roundHalfEven_eq (q : ℚ) (n : ℤ) (hlo : (n : ℚ) - 1 / 2 < q) (hhi : q < n + 1 / 2) :
    roundHalfEven q = n := by
  unfold roundHalfEven
  by_cases hq : (n : ℚ) ≤ q
  · have hf : ⌊q⌋ = n := by
      rw [Int.floor_eq_iff]
      constructor <;> linarith
    rw [hf, if_pos (by linarith)]
  · have hf : ⌊q⌋ = n - 1 := by
      rw [Int.floor_eq_iff]
      push_cast
      constructor <;> linarith
    rw [hf]
    push_cast
    rw [if_neg (by linarith), if_pos (by linarith)]
    ring

theorem roundDouble_of_lt_two (x : ℚ) (n : ℤ) (h1 : 1 ≤ x) (h2 : x < 2)
    (hlo : (n : ℚ) - 1 / 2 < x * 2 ^ 52) (hhi : x * 2 ^ 52 < n + 1 / 2) :
    roundDouble x = n / 2 ^ 52 := by
  have hdiv : x / (1 / 2 ^ 52) = x * 2 ^ 52 := by
    rw [div_div_eq_mul_div, div_one]
  rw [roundDouble, if_pos ⟨h1, by linarith⟩, doubleUlp, if_pos h2, hdiv,
    roundHalfEven_eq _ n hlo hhi]
  ring

/-- On the doubles from 1 on, which are multiples of `2^-52`, the comparison with the double
that the literal `1.2` denotes, `5404319552844595 / 2^52`, agrees with the comparison with
`12 / 10`. -/
theorem double_gt_literal_iff (n : ℤ) :
    (n : ℚ) / 2 ^ 52 > 5404319552844595 / 2 ^ 52 ↔ (n : ℚ) / 2 ^ 52 > 12 / 10 := by
  have h52 : (0 : ℚ) < 2 ^ 52 := by positivity
  rw [gt_iff_lt, gt_iff_lt, div_lt_div_iff_of_pos_right h52, lt_div_iff₀ h52]
  constructor
  · intro h
    have h1 : (5404319552844595 : ℤ) < n := by exact_mod_cast h
    have h2 : (5404319552844596 : ℤ) ≤ n := by omega
    have h3 : (5404319552844596 : ℚ) ≤ n := by exact_mod_cast h2
    norm_num at h3 ⊢
    linarith
  · intro h
    by_contra hn
    have h1 : (n : ℚ) ≤ 5404319552844595 := not_lt.mp hn
    norm_num at h
    linarith

/-- The second value of the loop variable, the double `1.05`. -/
theorem nextMultiplier_one : nextMultiplier 1 = 4728779608739021 / 2 ^ 52 := by
  have h := roundDouble_of_lt_two (1 + stepLiteral) 4728779608739021
    (by norm_num [stepLiteral]) (by norm_num [stepLiteral]) (by norm_num [stepLiteral])
    (by norm_num [stepLiteral])
  rw [nextMultiplier, h]
  norm_num

/-- The third value of the loop variable, the double `1.1`. -/
theorem nextMultiplier_two :
    nextMultiplier (4728779608739021 / 2 ^ 52) = 4953959590107546 / 2 ^ 52 := by
  have h := roundDouble_of_lt_two (4728779608739021 / 2 ^ 52 + stepLiteral) 4953959590107546
    (by norm_num [stepLiteral]) (by norm_num [stepLiteral]) (by norm_num [stepLiteral])
    (by norm_num [stepLiteral])
  rw [nextMultiplier, h]
  norm_num

/-- The fourth value of the loop variable, the double `1.1500000000000001`. -/
theorem nextMultiplier_three :
    nextMultiplier (4953959590107546 / 2 ^ 52) = 5179139571476071 / 2 ^ 52 := by
  have h := roundDouble_of_lt_two (4953959590107546 / 2 ^ 52 + stepLiteral) 5179139571476071
    (by norm_num [stepLiteral]) (by norm_num [stepLiteral]) (by norm_num [stepLiteral])
    (by norm_num [stepLiteral])
  rw [nextMultiplier, h]
  norm_num

/-- The fifth value of the loop variable, the double `1.2000000000000002`. -/
theorem nextMultiplier_four :
    nextMultiplier (5179139571476071 / 2 ^ 52) = 5404319552844596 / 2 ^ 52 := by
  have h := roundDouble_of_lt_two (5179139571476071 / 2 ^ 52 + stepLiteral) 5404319552844596
    (by norm_num [stepLiteral]) (by norm_num [stepLiteral]) (by norm_num [stepLiteral])
    (by norm_num [stepLiteral])
  rw [nextMultiplier, h]
  norm_num

theorem toFixed2_fifth : toFixed2 (5404319552844596 / 2 ^ 52) = 6 / 5 := by
  have hf : ⌊(5404319552844596 / 2 ^ 52 : ℚ) * 100 + 1 / 2⌋ = 120 := by
    rw [Int.floor_eq_iff]
    constructor <;> norm_num
  rw [toFixed2, hf]
  norm_num

theorem rowsOfYear_thresholdData : rowsOfYear thresholdData "2021" = thresholdData := by
  simp [rowsOfYear, thresholdData, shiftData]

theorem processDataForYear_thresholdData (m : ℚ) :
    processDataForYear thresholdData m = Matrix.full (thresholdCells m) := by
  funext a b
  by_cases hm : m > 12 / 10
  · cases a <;> cases b <;>
      simp [processDataForYear, thresholdData, shiftData, processRow, Matrix.empty, Matrix.full,
        thresholdCells, adjustedAmzProfit, extraAdSpend, adSpendScale, getYearMultiplier,
        baseFlipProfit, hm] <;> norm_num
  · cases a <;> cases b <;>
      simp [processDataForYear, thresholdData, shiftData, processRow, Matrix.empty, Matrix.full,
        thresholdCells, adjustedAmzProfit, extraAdSpend, adSpendScale, getYearMultiplier,
        baseFlipProfit, hm]

theorem analyzeGame_thresholdData (m : ℚ) :
    ∃ an, analyzeGame (processDataForYear thresholdData m) = some an ∧
      primaryAmazon an = some (if m > 12 / 10 then Strategy.MD else Strategy.HD) := by
  have hF : bestReplies (flipkartPayoff (thresholdCells m)) = fun _ => [Strategy.MD] := by
    funext opp
    simp [bestReplies, STRATEGIES, List.filter_cons, forall_strategy, flipkartPayoff,
      thresholdCells]
    norm_num
  rw [processDataForYear_thresholdData, analyzeGame_full]
  refine ⟨_, rfl, ?_⟩
  by_cases hm : m > 12 / 10
  · have hA : bestReplies (amazonPayoff (thresholdCells m)) = fun _ => [Strategy.MD] := by
      funext opp
      simp [bestReplies, STRATEGIES, List.filter_cons, forall_strategy, amazonPayoff,
        thresholdCells, hm]
      norm_num
    simp only [primaryAmazon, hA, hF, if_pos hm]
    rfl
  · have hA : bestReplies (amazonPayoff (thresholdCells m)) = fun _ => [Strategy.HD] := by
      funext opp
      simp [bestReplies, STRATEGIES, List.filter_cons, forall_strategy, amazonPayoff,
        thresholdCells, hm]
      norm_num
    simp only [primaryAmazon, hA, hF, if_neg hm]
    rfl

theorem shiftLoop_thresholdData_first (m : ℚ) (hm : m ≤ 5) (hlow : ¬ m > 12 / 10) :
    shiftLoop thresholdData "2021" m none
      = shiftLoop thresholdData "2021" (nextMultiplier m) (some Strategy.HD) := by
  obtain ⟨an, han, hp⟩ := analyzeGame_thresholdData m
  rw [if_neg hlow] at hp
  rw [shiftLoop, dif_pos hm, han]
  simp only [hp]

theorem shiftLoop_thresholdData_same (m : ℚ) (hm : m ≤ 5) (hlow : ¬ m > 12 / 10) :
    shiftLoop thresholdData "2021" m (some Strategy.HD)
      = shiftLoop thresholdData "2021" (nextMultiplier m) (some Strategy.HD) := by
  obtain ⟨an, han, hp⟩ := analyzeGame_thresholdData m
  rw [if_neg hlow] at hp
  rw [shiftLoop, dif_pos hm, han]
  simp only [hp, ne_eq, not_true_eq_false, if_false]

theorem shiftLoop_thresholdData_shift (m : ℚ) (hm : m ≤ 5) (hhigh : m > 12 / 10) :
    shiftLoop thresholdData "2021" m (some Strategy.HD)
      = some (some { multiplier := toFixed2 m, fromStrategy := Strategy.HD,
                     toStrategy := Strategy.MD, year := "2021" }) := by
  obtain ⟨an, han, hp⟩ := analyzeGame_thresholdData m
  rw [if_pos hhigh] at hp
  rw [shiftLoop, dif_pos hm, han]
  simp [hp]

theorem equilibriumAt_thresholdData (k : ℕ) :
    equilibriumAt thresholdData k
      = some (if scanMultiplier k > 12 / 10 then Strategy.MD else Strategy.HD) := by
  obtain ⟨an, han, hp⟩ := analyzeGame_thresholdData (scanMultiplier k)
  rw [equilibriumAt, han]
  exact hp

theorem tippingPointSpec_thresholdData :
    tippingPointSpec (equilibriumAt thresholdData) "2021"
      = some { multiplier := 5 / 4, fromStrategy := Strategy.HD,
               toStrategy := Strategy.MD, year := "2021" } := by
  have hr : List.range 81 = 0 :: List.range' 1 80 := by decide
  have hr2 : List.range' (0 + 1) (80 - 0) = 1 :: 2 :: 3 :: 4 :: 5 :: List.range' 6 75 := by
    decide
  have he0 : equilibriumAt thresholdData 0 = some Strategy.HD := by
    rw [equilibriumAt_thresholdData, if_neg (by norm_num [scanMultiplier])]
  have he5 : equilibriumAt thresholdData 5 = some Strategy.MD := by
    rw [equilibriumAt_thresholdData, if_pos (by norm_num [scanMultiplier])]
  have hd1 : differsFrom (equilibriumAt thresholdData) Strategy.HD 1 = false := by
    rw [differsFrom, equilibriumAt_thresholdData, if_neg (by norm_num [scanMultiplier])]
    simp
  have hd2 : differsFrom (equilibriumAt thresholdData) Strategy.HD 2 = false := by
    rw [differsFrom, equilibriumAt_thresholdData, if_neg (by norm_num [scanMultiplier])]
    simp
  have hd3 : differsFrom (equilibriumAt thresholdData) Strategy.HD 3 = false := by
    rw [differsFrom, equilibriumAt_thresholdData, if_neg (by norm_num [scanMultiplier])]
    simp
  have hd4 : differsFrom (equilibriumAt thresholdData) Strategy.HD 4 = false := by
    rw [differsFrom, equilibriumAt_thresholdData, if_neg (by norm_num [scanMultiplier])]
    simp
  have hd5 : differsFrom (equilibriumAt thresholdData) Strategy.HD 5 = true := by
    rw [differsFrom, he5]
    simp
  have hm : scanMultiplier 5 = 5 / 4 := by norm_num [scanMultiplier]
  rw [tippingPointSpec, hr]
  simp only [List.find?_cons, he0, Option.isSome_some, Option.some_bind, shiftAfter, hr2,
    hd1, hd2, hd3, hd4, hd5, he5, Option.map_some', hm]

/-- C19 (the code on a failing input): the nine rows `thresholdData` of period 2021 contain all
nine strategy pairs.  With the exact multipliers `m_k = 1 + 0.05 k` of the claim, player one
plays HD at `m_0 = 1` and still at `m_4 = 1.2`, and MD first at `m_5 = 1.25`, so the claim
puts the tipping point at multiplier 1.25.  The loop of the source accumulates `m += 0.05` in
doubles: its fifth value `1.2000000000000002` already exceeds 1.2, player one plays MD there,
and `detectEquilibriumShift` returns the tipping point with multiplier `1.20`, from HD to
MD. -/
theorem detectEquilibriumShift_thresholdData :
    (∀ a b, ∃ r ∈ rowsOfYear thresholdData "2021",
      r.Amazon_Strategy = a ∧ r.Flipkart_Strategy = b) ∧
    detectEquilibriumShift thresholdData "2021"
      = some (some { multiplier := 6 / 5, fromStrategy := Strategy.HD,
                     toStrategy := Strategy.MD, year := "2021" }) ∧
    scanMultiplier 4 = 6 / 5 ∧
    equilibriumAt (rowsOfYear thresholdData "2021") 0 = some Strategy.HD ∧
    equilibriumAt (rowsOfYear thresholdData "2021") 4 = some Strategy.HD ∧
    tippingPointSpec (equilibriumAt (rowsOfYear thresholdData "2021")) "2021"
      = some { multiplier := 5 / 4, fromStrategy := Strategy.HD,
               toStrategy := Strategy.MD, year := "2021" } := by
  rw [rowsOfYear_thresholdData]
  refine ⟨?_, ?_, ?_, ?_, ?_, tippingPointSpec_thresholdData⟩
  · intro a b
    cases a <;> cases b <;> simp [thresholdData, shiftData]
  · have hne : ¬ (rowsOfYear thresholdData "2021").length = 0 := by
      rw [rowsOfYear_thresholdData]
      simp [thresholdData, shiftData]
    rw [detectEquilibriumShift]
    simp only [hne, if_false]
    rw [rowsOfYear_thresholdData,
      shiftLoop_thresholdData_first 1 (by norm_num) (by norm_num), nextMultiplier_one,
      shiftLoop_thresholdData_same _ (by norm_num) (by norm_num), nextMultiplier_two,
      shiftLoop_thresholdData_same _ (by norm_num) (by norm_num), nextMultiplier_three,
      shiftLoop_thresholdData_same _ (by norm_num) (by norm_num), nextMultiplier_four,
      shiftLoop_thresholdData_shift _ (by norm_num) (by norm_num), toFixed2_fifth]
  · norm_num [scanMultiplier]
  · rw [equilibriumAt_thresholdData, if_neg (by norm_num [scanMultiplier])]
  · rw [equilibriumAt_thresholdData, if_neg (by norm_num [scanMultiplier])]

theorem perturbRow_pos (row : Row) :
    perturbRow 1 row
      = { row with Demand_Probability := row.Demand_Probability *
            (if row.Market_Demand = "High" then 105 / 100
             else if row.Market_Demand = "Low" then 95 / 100 else 1) } := by
  unfold perturbRow
  by_cases hH : row.Market_Demand = "High"
  · simp [hH]
  · by_cases hL : row.Market_Demand = "Low" <;> simp [hH, hL]

theorem perturbRow_neg (row : Row) :
    perturbRow (-1) row
      = { row with Demand_Probability := row.Demand_Probability *
            (if row.Market_Demand = "High" then 95 / 100
             else if row.Market_Demand = "Low" then 105 / 100 else 1) } := by
  unfold perturbRow
  by_cases hH : row.Market_Demand = "High"
  · simp [hH]
  · by_cases hL : row.Market_Demand = "Low" <;> simp [hH, hL]

/-- C20: in `getPerturbedData`, before renormalization, each row of the period has its
`Demand_Probability` multiplied by 1.05 for a "High" row and by 0.95 for a "Low" row when
direction is +1, by 0.95 for a "High" row and by 1.05 for a "Low" row when direction is -1,
and left unchanged for a "Medium" row in both directions; no other field is changed. -/
theorem perturbedRows_eq_scaled (rawData : List Row) (year : String) :
    perturbedRows rawData year 1
      = (rowsOfYear rawData year).map (fun row =>
          { row with Demand_Probability := row.Demand_Probability *
              (if row.Market_Demand = "High" then 105 / 100
               else if row.Market_Demand = "Low" then 95 / 100 else 1) }) ∧
    perturbedRows rawData year (-1)
      = (rowsOfYear rawData year).map (fun row =>
          { row with Demand_Probability := row.Demand_Probability *
              (if row.Market_Demand = "High" then 95 / 100
               else if row.Market_Demand = "Low" then 105 / 100 else 1) }) ∧
    (∀ row : Row, row.Market_Demand = "Medium" →
      perturbRow 1 row = row ∧ perturbRow (-1) row = row) := by
  refine ⟨?_, ?_, ?_⟩
  · unfold perturbedRows
    exact List.map_congr_left (fun row _ => perturbRow_pos row)
  · unfold perturbedRows
    exact List.map_congr_left (fun row _ => perturbRow_neg row)
  · intro row hM
    obtain ⟨y, a, b, d, p, ap, fp, ad⟩ := row
    simp only at hM
    subst hM
    rw [perturbRow_pos, perturbRow_neg]
    simp

theorem mem_bestReplies_of_isDominant (payoff : Strategy → Strategy → ℚ) (s opp : Strategy)
    (h : IsDominant payoff s) : s ∈ bestReplies payoff opp := by
  rw [mem_bestReplies]
  intro t
  by_cases ht : t = s
  · rw [ht]
  · exact h t ht opp

theorem isDominant_of_getLast? (payoff : Strategy → Strategy → ℚ) (s : Strategy)
    (h : (STRATEGIES.filter (fun s => decide (IsDominant payoff s))).getLast? = some s) :
    IsDominant payoff s := by
  have hmem := List.mem_of_getLast?_eq_some h
  simpa using (List.mem_filter.mp hmem).2

/-- C27: for a fully populated matrix, if `analyzeGame` reports `amazonDominant = s` and
`flipkartDominant = t`, both non-null, then `(s, t)` is an element of `nashEquilibria`; hence
the analysis never has both dominant strategies non-null together with an empty equilibrium
list. -/
theorem analyzeGame_dominant_pair_mem_nash (cells : Strategy → Strategy → Cell) :
    ∃ an, analyzeGame (Matrix.full cells) = some an ∧
      (∀ s t, an.amazonDominant = some s → an.flipkartDominant = some t →
        ({ amazon := s, flipkart := t } : StrategyPair) ∈ an.nashEquilibria) ∧
      ¬ (an.amazonDominant ≠ none ∧ an.flipkartDominant ≠ none ∧ an.nashEquilibria = []) := by
  refine ⟨_, analyzeGame_full cells, ?_⟩
  have hmain : ∀ s t,
      (STRATEGIES.filter (fun s => decide (IsDominant (amazonPayoff cells) s))).getLast?
        = some s →
      (STRATEGIES.filter (fun s => decide (IsDominant (flipkartPayoff cells) s))).getLast?
        = some t →
      ({ amazon := s, flipkart := t } : StrategyPair)
        ∈ findNash (bestReplies (amazonPayoff cells)) (bestReplies (flipkartPayoff cells)) := by
    intro s t hs ht
    have h1 := mem_bestReplies_of_isDominant _ s t (isDominant_of_getLast? _ s hs)
    have h2 := mem_bestReplies_of_isDominant _ t s (isDominant_of_getLast? _ t ht)
    simp only [findNash_eq_filter, List.mem_filter, mem_rowMajorCells, true_and,
      Bool.and_eq_true, contains_eq_decide_mem, decide_eq_true_eq]
    exact ⟨h1, h2⟩
  refine ⟨hmain, ?_⟩
  rintro ⟨hA, hF, hnil⟩
  obtain ⟨s, hs⟩ := Option.ne_none_iff_exists'.mp hA
  obtain ⟨t, ht⟩ := Option.ne_none_iff_exists'.mp hF
  have hmem := hmain s t hs ht
  simp only at hnil
  rw [hnil] at hmem
  exact absurd hmem (List.not_mem_nil _)

theorem processDataForYear_flipkartProfit_eq (rows : List Row) (m m' : ℚ) (a b : Strategy) :
    (processDataForYear rows m a b).map Cell.flipkartProfit
      = (processDataForYear rows m' a b).map Cell.flipkartProfit := by
  cases rows with
  | nil => rfl
  | cons first rest =>
    simp only [processDataForYear]
    rw [foldl_processRow_apply, foldl_processRow_apply]
    by_cases hnil : (first :: rest).filter (Row.hasPair a b) = []
    · rw [if_pos hnil, if_pos hnil]
    · rw [if_neg hnil, if_neg hnil]
      rfl

/-- C29: for rows containing all nine strategy pairs and any two cost multipliers `m` and
`m'`, every `flipkartProfit` cell of `processDataForYear(rows, m)` equals the corresponding
cell of `processDataForYear(rows, m')`; consequently `flipkartBestResponses` and
`flipkartDominant` of `analyzeGame` are the same for both multipliers. -/
theorem processDataForYear_flipkart_side_independent (rows : List Row) (m m' : ℚ)
    (hall : ∀ a b, ∃ r ∈ rows, r.Amazon_Strategy = a ∧ r.Flipkart_Strategy = b) :
    (∀ a b, ∃ c c', processDataForYear rows m a b = some c ∧
      processDataForYear rows m' a b = some c' ∧ c.flipkartProfit = c'.flipkartProfit) ∧
    ∃ an an', analyzeGame (processDataForYear rows m) = some an ∧
      analyzeGame (processDataForYear rows m') = some an' ∧
      an.flipkartBestResponses = an'.flipkartBestResponses ∧
      an.flipkartDominant = an'.flipkartDominant := by
  obtain ⟨cells, hcells⟩ := processDataForYear_full_of_all_pairs rows m hall
  obtain ⟨cells', hcells'⟩ := processDataForYear_full_of_all_pairs rows m' hall
  have hflip : ∀ a b, (cells a b).flipkartProfit = (cells' a b).flipkartProfit := by
    intro a b
    have h := processDataForYear_flipkartProfit_eq rows m m' a b
    rw [hcells, hcells'] at h
    simpa [Matrix.full] using h
  have hpay : flipkartPayoff cells = flipkartPayoff cells' := by
    funext own opp
    exact hflip opp own
  refine ⟨?_, ?_⟩
  · intro a b
    refine ⟨cells a b, cells' a b, ?_, ?_, hflip a b⟩
    · rw [hcells]; rfl
    · rw [hcells']; rfl
  · refine ⟨_, _, hcells ▸ analyzeGame_full cells, hcells' ▸ analyzeGame_full cells', ?_, ?_⟩
    · show bestReplies (flipkartPayoff cells) = bestReplies (flipkartPayoff cells')
      rw [hpay]
    · show (STRATEGIES.filter (fun s => decide (IsDominant (flipkartPayoff cells) s))).getLast?
        = (STRATEGIES.filter
            (fun s => decide (IsDominant (flipkartPayoff cells') s))).getLast?
      rw [hpay]

theorem shiftData_all_pairs :
    ∀ a b, ∃ r ∈ shiftData, r.Amazon_Strategy = a ∧ r.Flipkart_Strategy = b := by
  intro a b
  cases a <;> cases b <;> simp [shiftData]

/-- C29 (instance): the nine rows `shiftData` with the multipliers 1 and 2. -/
theorem processDataForYear_flipkart_side_independent_witness :
    (∀ a b, ∃ r ∈ shiftData, r.Amazon_Strategy = a ∧ r.Flipkart_Strategy = b) ∧
    (∀ a b, ∃ c c', processDataForYear shiftData 1 a b = some c ∧
      processDataForYear shiftData 2 a b = some c' ∧ c.flipkartProfit = c'.flipkartProfit) ∧
    ∃ an an', analyzeGame (processDataForYear shiftData 1) = some an ∧
      analyzeGame (processDataForYear shiftData 2) = some an' ∧
      an.flipkartBestResponses = an'.flipkartBestResponses ∧
      an.flipkartDominant = an'.flipkartDominant :=
  ⟨shiftData_all_pairs,
    processDataForYear_flipkart_side_independent shiftData 1 2 shiftData_all_pairs⟩

/-- C30: for every cost multiplier and any two lists of rows of the same single period that
are permutations of each other, `processDataForYear` returns the same matrix: the same cells
are present and each holds the same `amazonProfit` and `flipkartProfit`. -/
theorem processDataForYear_perm (rows rows' : List Row) (m : ℚ) (year : String)
    (hperm : rows.Perm rows') (hperiod : ∀ r ∈ rows, r.Festival_Year = year) :
    processDataForYear rows m = processDataForYear rows' m := by
  have hperiod' : ∀ r ∈ rows', r.Festival_Year = year :=
    fun r hr => hperiod r (hperm.mem_iff.mpr hr)
  funext a b
  rw [processDataForYear_apply rows m year hperiod a b,
    processDataForYear_apply rows' m year hperiod' a b]
  have hfilter : (rows.filter (Row.hasPair a b)).Perm (rows'.filter (Row.hasPair a b)) :=
    hperm.filter _
  have hnil : rows.filter (Row.hasPair a b) = [] ↔ rows'.filter (Row.hasPair a b) = [] := by
    constructor
    · intro h; rw [h] at hfilter; exact List.Perm.eq_nil hfilter.symm
    · intro h; rw [h] at hfilter; exact List.Perm.eq_nil hfilter
  by_cases h : rows.filter (Row.hasPair a b) = []
  · rw [if_pos h, if_pos (hnil.mp h)]
  · rw [if_neg h, if_neg (fun h' => h (hnil.mpr h'))]
    rw [(hfilter.map _).sum_eq, (hfilter.map _).sum_eq]

/-- C30 (instance): the two sample rows of period 2021 in both orders, multiplier 3. -/
theorem processDataForYear_perm_witness :
    [sampleRow, sampleRow2].Perm [sampleRow2, sampleRow] ∧
    (∀ r ∈ [sampleRow, sampleRow2], r.Festival_Year = "2021") ∧
    processDataForYear [sampleRow, sampleRow2] 3 = processDataForYear [sampleRow2, sampleRow] 3 :=
  ⟨List.Perm.swap _ _ _, by simp [sampleRow, sampleRow2],
    processDataForYear_perm [sampleRow, sampleRow2] [sampleRow2, sampleRow] 3 "2021"
      (List.Perm.swap _ _ _) (by simp [sampleRow, sampleRow2])⟩

theorem foldl_add_eq_sum {α : Type} (f : α → ℚ) (l : List α) :
    ∀ init : ℚ, l.foldl (fun acc x => acc + f x) init = init + (l.map f).sum := by
  induction l with
  | nil => intro init; simp
  | cons a l ih =>
    intro init
    rw [List.foldl_cons, ih, List.map_cons, List.sum_cons]
    ring

theorem mem_rowsOfYear (rawData : List Row) (year : String) (r : Row) :
    r ∈ rowsOfYear rawData year ↔ r ∈ rawData ∧ r.Festival_Year = year := by
  simp [rowsOfYear]

theorem branchProfit_amazon (year : String) (m : ℚ) (a : Strategy) (row : Row)
    (h : row.Amazon_Strategy = a) :
    branchProfit year m a "Amazon" row = adjustedAmzProfit year m row := by
  simp only [branchProfit, adjustedAmzProfit, h, if_true]

theorem branchProfit_flipkart (year : String) (m : ℚ) (a : Strategy) (perspective : String)
    (row : Row) (h : perspective ≠ "Amazon") :
    branchProfit year m a perspective row = baseFlipProfit year row := by
  simp only [branchProfit, baseFlipProfit, h, if_false]

theorem contains_iff_mem_of_decEq {β : Type} [DecidableEq β] (l : List β) (b : β) :
    l.contains b = true ↔ b ∈ l := by
  simp [List.contains]

theorem foldl_distinct_nodup {α β : Type} [DecidableEq β] (f : α → β) (l : List α) :
    ∀ acc : List β, acc.Nodup →
      (l.foldl (fun acc x => if acc.contains (f x) then acc else acc ++ [f x]) acc).Nodup := by
  induction l with
  | nil => intro acc h; exact h
  | cons a l ih =>
    intro acc h
    rw [List.foldl_cons]
    apply ih
    by_cases hc : acc.contains (f a) = true
    · rw [if_pos hc]
      exact h
    · rw [if_neg hc]
      have hmem : f a ∉ acc := fun hm => hc ((contains_iff_mem_of_decEq acc (f a)).mpr hm)
      exact List.Nodup.append h (List.nodup_singleton _) (by simpa using hmem)

theorem mem_foldl_distinct {α β : Type} [DecidableEq β] (f : α → β) (l : List α) (y : β) :
    ∀ acc : List β,
      y ∈ l.foldl (fun acc x => if acc.contains (f x) then acc else acc ++ [f x]) acc
        ↔ y ∈ acc ∨ ∃ x ∈ l, f x = y := by
  induction l with
  | nil => intro acc; simp
  | cons a l ih =>
    intro acc
    rw [List.foldl_cons, ih]
    by_cases hc : acc.contains (f a) = true
    · rw [if_pos hc]
      have hmem : f a ∈ acc := (contains_iff_mem_of_decEq acc (f a)).mp hc
      simp only [List.mem_cons, exists_eq_or_imp]
      constructor
      · rintro (h | h)
        · exact Or.inl h
        · exact Or.inr (Or.inr h)
      · rintro (h | h | h)
        · exact Or.inl h
        · exact Or.inl (h ▸ hmem)
        · exact Or.inr h
    · rw [if_neg hc]
      rw [List.mem_append, List.mem_singleton]
      simp only [List.mem_cons, exists_eq_or_imp]
      constructor
      · rintro ((h | h) | h)
        · exact Or.inl h
        · exact Or.inr (Or.inl h.symm)
        · exact Or.inr (Or.inr h)
      · rintro (h | h | h)
        · exact Or.inl (Or.inl h)
        · exact Or.inl (Or.inr h.symm)
        · exact Or.inr h

theorem sensitivityEMV_eq_sum (rawData : List Row) (year : String) (m : ℚ) (s : Strategy) :
    sensitivityEMV (rowsOfYear rawData year) year m s
      = (((rowsOfYear rawData year).filter (Row.hasPair s Strategy.HD)).map
          (fun r => adjustedAmzProfit year m r * r.Demand_Probability)).sum := by
  unfold sensitivityEMV
  simp only []
  have hfun : (fun row : Row =>
      decide (row.Amazon_Strategy = s) && decide (row.Flipkart_Strategy = Strategy.HD))
        = Row.hasPair s Strategy.HD := rfl
  rw [hfun, foldl_add_eq_sum, zero_add]
  congr 1
  apply List.map_congr_left
  intro r hr
  have hs : r.Amazon_Strategy = s := by
    have := (List.mem_filter.mp hr).2
    simp only [Row.hasPair, Bool.and_eq_true, decide_eq_true_eq] at this
    exact this.1
  simp only [adjustedAmzProfit, hs]

/-- C23: `calculateMultiYearSensitivity` returns exactly one data point per distinct period,
and for each period `y` and each strategy `s` the point's value for `s` equals
`processDataForYear(rows of period y, m)[s][HD].amazonProfit` when period `y` has at least one
row for the pair `(s, HD)`, and 0 when it has none. -/
theorem calculateMultiYearSensitivity_eq_matrix_column (rawData : List Row) (m : ℚ) :
    ((calculateMultiYearSensitivity rawData m).map SensitivityPoint.year).Nodup ∧
    (∀ y, y ∈ (calculateMultiYearSensitivity rawData m).map SensitivityPoint.year
      ↔ ∃ r ∈ rawData, r.Festival_Year = y) ∧
    (∀ p ∈ calculateMultiYearSensitivity rawData m, ∀ s : Strategy,
      ((∃ r ∈ rowsOfYear rawData p.year,
          r.Amazon_Strategy = s ∧ r.Flipkart_Strategy = Strategy.HD) →
        ∃ cell, processDataForYear (rowsOfYear rawData p.year) m s Strategy.HD = some cell ∧
          p.value s = cell.amazonProfit) ∧
      ((¬ ∃ r ∈ rowsOfYear rawData p.year,
          r.Amazon_Strategy = s ∧ r.Flipkart_Strategy = Strategy.HD) →
        p.value s = 0)) := by
  have hyears : (calculateMultiYearSensitivity rawData m).map SensitivityPoint.year
      = (distinctYears rawData).insertionSort (fun a b => a ≤ b) := by
    simp [calculateMultiYearSensitivity, List.map_map, Function.comp_def]
  have hperm := List.perm_insertionSort (fun a b : String => a ≤ b) (distinctYears rawData)
  refine ⟨?_, ?_, ?_⟩
  · rw [hyears, hperm.nodup_iff]
    exact foldl_distinct_nodup Row.Festival_Year rawData [] List.nodup_nil
  · intro y
    rw [hyears, hperm.mem_iff]
    unfold distinctYears
    rw [mem_foldl_distinct Row.Festival_Year rawData y []]
    simp
  · intro p hp s
    simp only [calculateMultiYearSensitivity, List.mem_map] at hp
    obtain ⟨year, _, rfl⟩ := hp
    have hval : SensitivityPoint.value
        { year := year
          HD := sensitivityEMV (rowsOfYear rawData year) year m Strategy.HD
          MD := sensitivityEMV (rowsOfYear rawData year) year m Strategy.MD
          LD := sensitivityEMV (rowsOfYear rawData year) year m Strategy.LD } s
        = sensitivityEMV (rowsOfYear rawData year) year m s := by
      cases s <;> rfl
    simp only [hval]
    have happly := processDataForYear_apply (rowsOfYear rawData year) m year
      (fun r hr => ((mem_rowsOfYear rawData year r).mp hr).2) s Strategy.HD
    have hfilter : (rowsOfYear rawData year).filter (Row.hasPair s Strategy.HD) = []
        ↔ ¬ ∃ r ∈ rowsOfYear rawData year,
            r.Amazon_Strategy = s ∧ r.Flipkart_Strategy = Strategy.HD := by
      rw [List.filter_eq_nil_iff]
      simp [Row.hasPair]
    constructor
    · intro hex
      have hnil : ¬ (rowsOfYear rawData year).filter (Row.hasPair s Strategy.HD) = [] :=
        fun h => hfilter.mp h hex
      rw [if_neg hnil] at happly
      exact ⟨_, happly, sensitivityEMV_eq_sum rawData year m s⟩
    · intro hno
      rw [sensitivityEMV_eq_sum, hfilter.mpr hno]
      rfl

theorem decisionTree_scenarios_eq (data : List Row) (year : String) (a b : Strategy) :
    data.filter (fun row =>
        decide (row.Festival_Year = year) && decide (row.Amazon_Strategy = a)
          && decide (row.Flipkart_Strategy = b))
      = (rowsOfYear data year).filter (Row.hasPair a b) := by
  unfold rowsOfYear
  rw [List.filter_filter]
  apply List.filter_congr
  intro r _
  simp only [Row.hasPair, Bool.and_comm, Bool.and_assoc]

/-- C24: `getDecisionTreeData` returns null exactly when the period has no row for `(a, b)`;
otherwise its `emv` equals the `amazonProfit` of the cell `(a, b)` of
`processDataForYear(rows of the period, m)` when the perspective is 'Amazon' and the cell's
`flipkartProfit` for any other perspective, and `emv` is the sum over the returned branches of
probability times payoff. -/
theorem getDecisionTreeData_emv_eq_cell (data : List Row) (year : String) (a b : Strategy)
    (m : ℚ) (perspective : String) :
    (getDecisionTreeData data year a b m perspective = none ↔
      ¬ ∃ r ∈ rowsOfYear data year, r.Amazon_Strategy = a ∧ r.Flipkart_Strategy = b) ∧
    (∀ tree, getDecisionTreeData data year a b m perspective = some tree →
      ∃ cell, processDataForYear (rowsOfYear data year) m a b = some cell ∧
        tree.emv = (if perspective = "Amazon" then cell.amazonProfit
                    else cell.flipkartProfit) ∧
        tree.emv = (tree.branches.map (fun br => br.probability * br.payoff)).sum) := by
  have hfilter : (rowsOfYear data year).filter (Row.hasPair a b) = []
      ↔ ¬ ∃ r ∈ rowsOfYear data year, r.Amazon_Strategy = a ∧ r.Flipkart_Strategy = b := by
    rw [List.filter_eq_nil_iff]
    simp [Row.hasPair]
  have happly := processDataForYear_apply (rowsOfYear data year) m year
    (fun r hr => ((mem_rowsOfYear data year r).mp hr).2) a b
  have hstrat : ∀ r ∈ (rowsOfYear data year).filter (Row.hasPair a b),
      r.Amazon_Strategy = a := by
    intro r hr
    have := (List.mem_filter.mp hr).2
    simp only [Row.hasPair, Bool.and_eq_true, decide_eq_true_eq] at this
    exact this.1
  unfold getDecisionTreeData
  simp only [decisionTree_scenarios_eq, List.length_eq_zero]
  by_cases hnil : (rowsOfYear data year).filter (Row.hasPair a b) = []
  · simp only [hnil, if_true, true_iff]
    exact ⟨hfilter.mp hnil, fun tree h => by simp at h⟩
  · rw [if_neg hnil] at happly
    simp only [hnil, if_false, reduceCtorEq, false_iff, not_not, Option.some.injEq]
    refine ⟨not_not.mp (mt hfilter.mpr hnil), ?_⟩
    rintro tree rfl
    refine ⟨_, happly, ?_, ?_⟩
    · simp only [foldl_add_eq_sum, zero_add]
      by_cases hp : perspective = "Amazon"
      · rw [if_pos hp]
        congr 1
        apply List.map_congr_left
        intro r hr
        rw [hp, branchProfit_amazon year m a r (hstrat r hr)]
        ring
      · rw [if_neg hp]
        congr 1
        apply List.map_congr_left
        intro r _
        rw [branchProfit_flipkart year m a perspective r hp]
        ring
    · simp only [foldl_add_eq_sum, zero_add, List.map_map]
      rfl

theorem foldlM_append_some {α β : Type} (g : α → Option (List β)) (h : α → List β)
    (l : List α) :
    (∀ x ∈ l, g x = some (h x)) →
      ∀ acc : List β,
        l.foldlM (fun acc x => (g x).map (fun pushed => acc ++ pushed)) acc
          = some (acc ++ l.flatMap h) := by
  induction l with
  | nil => intro _ acc; simp [List.foldlM]
  | cons a l ih =>
    intro hg acc
    have ha : g a = some (h a) := hg a (List.mem_cons_self _ _)
    have hl : ∀ x ∈ l, g x = some (h x) := fun x hx => hg x (List.mem_cons_of_mem _ hx)
    simp only [List.foldlM, ha, Option.map_some', Option.bind_eq_bind, Option.some_bind]
    rw [ih hl]
    simp

theorem normalizePair_of_total_ne_zero (rows : List Row) (pair : Strategy × Strategy)
    (h : groupTotal rows pair ≠ 0) :
    normalizePair rows pair = some (renormalizedGroup rows pair) := by
  have htotal : (rows.filter (Row.hasPair pair.1 pair.2)).foldl
      (fun sum r => sum + r.Demand_Probability) 0 = groupTotal rows pair := by
    rw [foldl_add_eq_sum, zero_add]
    rfl
  unfold normalizePair
  simp only [htotal, h, if_false]
  rfl

theorem sum_map_div_const {α : Type} (f : α → ℚ) (c : ℚ) (l : List α) :
    (l.map (fun x => f x / c)).sum = (l.map f).sum / c := by
  induction l with
  | nil => simp
  | cons a l ih => simp only [List.map_cons, List.sum_cons, ih]; ring

theorem renormalizedGroup_sum (rows : List Row) (pair : Strategy × Strategy)
    (h : groupTotal rows pair ≠ 0) :
    ((renormalizedGroup rows pair).map Row.Demand_Probability).sum = 1 := by
  unfold renormalizedGroup
  rw [List.map_map]
  have hfun : (Row.Demand_Probability ∘ fun r : Row =>
      { r with Demand_Probability := r.Demand_Probability / groupTotal rows pair })
        = fun r => r.Demand_Probability / groupTotal rows pair := rfl
  rw [hfun, sum_map_div_const]
  exact div_self h

/-- C21: in `getPerturbedData`, for every strategy-pair group whose perturbed probabilities
have a non-zero total, each row's renormalized probability is its perturbed probability
divided by the total of the group, so the renormalized probabilities of the group sum to 1;
and when the period has rows and every group has a non-zero total, the returned matrix is
`processDataForYear` applied to the renormalized rows with the given cost multiplier. -/
theorem getPerturbedData_renormalized (rawData : List Row) (year : String) (m : ℚ)
    (direction : ℤ) :
    (∀ pair, groupTotal (perturbedRows rawData year direction) pair ≠ 0 →
      normalizePair (perturbedRows rawData year direction) pair
          = some (renormalizedGroup (perturbedRows rawData year direction) pair) ∧
      ((renormalizedGroup (perturbedRows rawData year direction) pair).map
          Row.Demand_Probability).sum = 1) ∧
    (rowsOfYear rawData year ≠ [] →
      (∀ pair ∈ distinctPairs (perturbedRows rawData year direction),
        groupTotal (perturbedRows rawData year direction) pair ≠ 0) →
      getPerturbedData rawData year m direction
        = some (some (processDataForYear
            ((distinctPairs (perturbedRows rawData year direction)).flatMap
              (renormalizedGroup (perturbedRows rawData year direction))) m))) := by
  constructor
  · intro pair h
    exact ⟨normalizePair_of_total_ne_zero _ pair h, renormalizedGroup_sum _ pair h⟩
  · intro hne hall
    have hlen : ¬ (rowsOfYear rawData year).length = 0 := by
      rw [List.length_eq_zero]; exact hne
    unfold getPerturbedData
    rw [if_neg hlen]
    unfold normalizedData
    rw [foldlM_append_some _ (renormalizedGroup (perturbedRows rawData year direction)) _
      (fun pair hpair => normalizePair_of_total_ne_zero _ pair (hall pair hpair))]
    simp

theorem distinctPairs_sample :
    distinctPairs (perturbedRows [sampleRow, sampleRow2] "2021" 1)
      = [(Strategy.HD, Strategy.HD), (Strategy.MD, Strategy.HD)] := by
  simp [distinctPairs, perturbedRows, rowsOfYear, perturbRow, sampleRow, sampleRow2]

/-- C21 (instance): the two sample rows of period 2021, direction +1, multiplier 1: the groups
(HD, HD) and (MD, HD) have the non-zero totals 0.525 and 0.2375. -/
theorem getPerturbedData_renormalized_witness :
    rowsOfYear [sampleRow, sampleRow2] "2021" ≠ [] ∧
    (∀ pair ∈ distinctPairs (perturbedRows [sampleRow, sampleRow2] "2021" 1),
      groupTotal (perturbedRows [sampleRow, sampleRow2] "2021" 1) pair ≠ 0) ∧
    getPerturbedData [sampleRow, sampleRow2] "2021" 1 1
      = some (some (processDataForYear
          ((distinctPairs (perturbedRows [sampleRow, sampleRow2] "2021" 1)).flatMap
            (renormalizedGroup (perturbedRows [sampleRow, sampleRow2] "2021" 1))) 1)) ∧
    ((renormalizedGroup (perturbedRows [sampleRow, sampleRow2] "2021" 1)
        (Strategy.HD, Strategy.HD)).map Row.Demand_Probability).sum = 1 := by
  have hne : rowsOfYear [sampleRow, sampleRow2] "2021" ≠ [] := by
    simp [rowsOfYear, sampleRow, sampleRow2]
  have h1 : groupTotal (perturbedRows [sampleRow, sampleRow2] "2021" 1)
      (Strategy.HD, Strategy.HD) ≠ 0 := by
    simp [groupTotal, perturbedRows, rowsOfYear, perturbRow, Row.hasPair, sampleRow,
      sampleRow2]
  have h2 : groupTotal (perturbedRows [sampleRow, sampleRow2] "2021" 1)
      (Strategy.MD, Strategy.HD) ≠ 0 := by
    simp [groupTotal, perturbedRows, rowsOfYear, perturbRow, Row.hasPair, sampleRow,
      sampleRow2]
  have hall : ∀ pair ∈ distinctPairs (perturbedRows [sampleRow, sampleRow2] "2021" 1),
      groupTotal (perturbedRows [sampleRow, sampleRow2] "2021" 1) pair ≠ 0 := by
    intro pair hpair
    rw [distinctPairs_sample] at hpair
    simp only [List.mem_cons, List.mem_singleton, List.not_mem_nil, or_false] at hpair
    rcases hpair with rfl | rfl
    · exact h1
    · exact h2
  exact ⟨hne, hall,
    (getPerturbedData_renormalized [sampleRow, sampleRow2] "2021" 1 1).2 hne hall,
    ((getPerturbedData_renormalized [sampleRow, sampleRow2] "2021" 1 1).1 _ h1).2⟩

theorem normalizedData_shiftData_pos :
    normalizedData (perturbedRows shiftData "2021" 1) = some shiftData := by
  simp [normalizedData, perturbedRows, rowsOfYear, perturbRow, distinctPairs, normalizePair,
    Row.hasPair, shiftData, List.foldlM]

theorem normalizedData_shiftData_neg :
    normalizedData (perturbedRows shiftData "2021" (-1)) = some shiftData := by
  simp [normalizedData, perturbedRows, rowsOfYear, perturbRow, distinctPairs, normalizePair,
    Row.hasPair, shiftData, List.foldlM]

theorem getPerturbedData_shiftData (direction : ℤ)
    (h : normalizedData (perturbedRows shiftData "2021" direction) = some shiftData) :
    getPerturbedData shiftData "2021" 1 direction
      = some (some (Matrix.full (shiftCells 1))) := by
  have hlen : ¬ (rowsOfYear shiftData "2021").length = 0 := by
    rw [rowsOfYear_shiftData]; simp [shiftData]
  unfold getPerturbedData
  rw [if_neg hlen, h, Option.map_some', processDataForYear_shiftData 1 (by norm_num)]

theorem findNash_shiftCells_one :
    findNash (bestReplies (amazonPayoff (shiftCells 1)))
        (bestReplies (flipkartPayoff (shiftCells 1)))
      = [{ amazon := Strategy.HD, flipkart := Strategy.MD }] := by
  have hA : bestReplies (amazonPayoff (shiftCells 1)) = fun _ => [Strategy.HD] := by
    funext opp
    simp [bestReplies, STRATEGIES, List.filter_cons, forall_strategy, amazonPayoff, shiftCells]
    norm_num
  have hF : bestReplies (flipkartPayoff (shiftCells 1)) = fun _ => [Strategy.MD] :=
    funext (bestReplies_flipkart_shiftCells 1)
  rw [hA, hF]
  rfl

theorem pair_eq_of_fields (o : Option StrategyPair) (p : StrategyPair) :
    (decide (o.map StrategyPair.amazon = some p.amazon)
        && decide (o.map StrategyPair.flipkart = some p.flipkart)) = true ↔ o = some p := by
  cases o with
  | none => simp
  | some q =>
    obtain ⟨qa, qf⟩ := q
    obtain ⟨pa, pf⟩ := p
    simp

/-- C22: given a baseline primary equilibrium, and perturbed matrices on which `analyzeGame`
returns, the robustness flag computed in `TheoreticalValidation` is true exactly when the
analyses of the +1-perturbed and of the -1-perturbed matrix each have a first Nash equilibrium
whose player-one and player-two strategies both equal the baseline's; it is false when either
perturbed matrix has no equilibrium or a different first equilibrium. -/
theorem robustness_isRobust_iff (rawData : List Row) (year : String) (m : ℚ)
    (baseline : StrategyPair) (matrixPos matrixNeg : Matrix) (analysisPos analysisNeg : Analysis)
    (hyear : year ≠ "")
    (hpos : getPerturbedData rawData year m 1 = some (some matrixPos))
    (hneg : getPerturbedData rawData year m (-1) = some (some matrixNeg))
    (haPos : analyzeGame matrixPos = some analysisPos)
    (haNeg : analyzeGame matrixNeg = some analysisNeg) :
    ∃ isRobust, robustness rawData year m (some baseline) = some (some isRobust) ∧
      (isRobust = true ↔
        analysisPos.nashEquilibria.head? = some baseline ∧
        analysisNeg.nashEquilibria.head? = some baseline) := by
  refine ⟨(decide (analysisPos.nashEquilibria.head?.map StrategyPair.amazon
          = some baseline.amazon)
        && decide (analysisPos.nashEquilibria.head?.map StrategyPair.flipkart
          = some baseline.flipkart))
      && (decide (analysisNeg.nashEquilibria.head?.map StrategyPair.amazon
          = some baseline.amazon)
        && decide (analysisNeg.nashEquilibria.head?.map StrategyPair.flipkart
          = some baseline.flipkart)), ?_, ?_⟩
  · unfold robustness
    rw [if_neg hyear]
    simp only [hpos, hneg, analyzeGameOrThrow, haPos, haNeg, Option.bind_eq_bind,
      Option.some_bind]
    rfl
  · rw [Bool.and_eq_true, pair_eq_of_fields, pair_eq_of_fields]

/-- C22 (instance): the nine rows `shiftData`, period 2021, multiplier 1, baseline (HD, MD):
both perturbed matrices have (HD, MD) as first equilibrium and the flag is true. -/
theorem robustness_isRobust_iff_witness :
    ("2021" : String) ≠ "" ∧
    getPerturbedData shiftData "2021" 1 1 = some (some (Matrix.full (shiftCells 1))) ∧
    getPerturbedData shiftData "2021" 1 (-1) = some (some (Matrix.full (shiftCells 1))) ∧
    robustness shiftData "2021" 1 (some { amazon := Strategy.HD, flipkart := Strategy.MD })
      = some (some true) := by
  have hy : ("2021" : String) ≠ "" := by decide
  have hpos := getPerturbedData_shiftData 1 normalizedData_shiftData_pos
  have hneg := getPerturbedData_shiftData (-1) normalizedData_shiftData_neg
  refine ⟨hy, hpos, hneg, ?_⟩
  obtain ⟨isRobust, hr, hiff⟩ :=
    robustness_isRobust_iff shiftData "2021" 1
      { amazon := Strategy.HD, flipkart := Strategy.MD }
      _ _ _ _ hy hpos hneg (analyzeGame_full (shiftCells 1)) (analyzeGame_full (shiftCells 1))
  have htrue : isRobust = true := by
    apply hiff.mpr
    simp only [findNash_shiftCells_one]
    exact ⟨rfl, rfl⟩
  rw [hr, htrue]

theorem analyzeGame_penniesOutside :
    ∃ an, analyzeGame (Matrix.full penniesOutside) = some an ∧ an.nashEquilibria = [] := by
  refine ⟨_, analyzeGame_full penniesOutside, ?_⟩
  have hA : bestReplies (amazonPayoff penniesOutside) = fun opp =>
      match opp with
      | Strategy.HD => [Strategy.HD]
      | Strategy.MD => [Strategy.MD]
      | Strategy.LD => [Strategy.HD, Strategy.MD, Strategy.LD] := by
    funext opp
    cases opp <;>
      simp [bestReplies, STRATEGIES, List.filter_cons, forall_strategy, amazonPayoff,
        penniesOutside]
  have hF : bestReplies (flipkartPayoff penniesOutside) = fun opp =>
      match opp with
      | Strategy.HD => [Strategy.MD]
      | Strategy.MD => [Strategy.HD]
      | Strategy.LD => [Strategy.HD, Strategy.MD] := by
    funext opp
    cases opp <;>
      simp [bestReplies, STRATEGIES, List.filter_cons, forall_strategy, flipkartPayoff,
        penniesOutside] <;>
      norm_num
  show findNash (bestReplies (amazonPayoff penniesOutside))
    (bestReplies (flipkartPayoff penniesOutside)) = []
  rw [hA, hF]
  rfl

/-- C25 (as stated, refuted): the matrix `penniesOutside` has no pure equilibrium, the solver
returns `amazonMixing = flipkartMixing = (1/2, 1/2, 0)` with expected payoff 0 for player one,
and the pure strategy LD of player one earns 1 against `flipkartMixing`, more than
`expectedPayoffs.amazon`. -/
theorem calculateMixedStrategy_not_equilibrium :
    (∃ an, analyzeGame (Matrix.full penniesOutside) = some an ∧ an.nashEquilibria = []) ∧
    ∃ res fm ep, calculateMixedStrategy (Matrix.full penniesOutside) = some res ∧
      res.flipkartMixing = some fm ∧ res.expectedPayoffs = some ep ∧
      ep.amazon = 0 ∧ amazonPayoffAgainst penniesOutside fm Strategy.LD = 1 ∧
      amazonPayoffAgainst penniesOutside fm Strategy.LD > ep.amazon := by
  refine ⟨analyzeGame_penniesOutside, ?_⟩
  obtain ⟨an, han, hne⟩ := analyzeGame_penniesOutside
  have hq : solveMix ((penniesOutside Strategy.MD Strategy.MD).amazonProfit
        - (penniesOutside Strategy.HD Strategy.MD).amazonProfit)
      ((penniesOutside Strategy.HD Strategy.HD).amazonProfit
        - (penniesOutside Strategy.HD Strategy.MD).amazonProfit
        - (penniesOutside Strategy.MD Strategy.HD).amazonProfit
        + (penniesOutside Strategy.MD Strategy.MD).amazonProfit) = 1 / 2 := by
    norm_num [solveMix, clampUnit, penniesOutside]
  have hp : solveMix ((penniesOutside Strategy.MD Strategy.MD).flipkartProfit
        - (penniesOutside Strategy.MD Strategy.HD).flipkartProfit)
      ((penniesOutside Strategy.HD Strategy.HD).flipkartProfit
        - (penniesOutside Strategy.MD Strategy.HD).flipkartProfit
        - (penniesOutside Strategy.HD Strategy.MD).flipkartProfit
        + (penniesOutside Strategy.MD Strategy.MD).flipkartProfit) = 1 / 2 := by
    norm_num [solveMix, clampUnit, penniesOutside]
  have h0 : (mixedStrategyOfCells (penniesOutside Strategy.HD Strategy.HD)
      (penniesOutside Strategy.MD Strategy.HD) (penniesOutside Strategy.HD Strategy.MD)
      (penniesOutside Strategy.MD Strategy.MD)).expectedPayoffs
        = some { amazon := 0, flipkart := 0 } := by
    simp only [mixedStrategyOfCells, hp, hq]
    norm_num [penniesOutside]
  have h1 : amazonPayoffAgainst penniesOutside
      (fun s => if s = Strategy.HD then
          solveMix ((penniesOutside Strategy.MD Strategy.MD).amazonProfit
              - (penniesOutside Strategy.HD Strategy.MD).amazonProfit)
            ((penniesOutside Strategy.HD Strategy.HD).amazonProfit
              - (penniesOutside Strategy.HD Strategy.MD).amazonProfit
              - (penniesOutside Strategy.MD Strategy.HD).amazonProfit
              + (penniesOutside Strategy.MD Strategy.MD).amazonProfit)
        else if s = Strategy.MD then
          1 - solveMix ((penniesOutside Strategy.MD Strategy.MD).amazonProfit
              - (penniesOutside Strategy.HD Strategy.MD).amazonProfit)
            ((penniesOutside Strategy.HD Strategy.HD).amazonProfit
              - (penniesOutside Strategy.HD Strategy.MD).amazonProfit
              - (penniesOutside Strategy.MD Strategy.HD).amazonProfit
              + (penniesOutside Strategy.MD Strategy.MD).amazonProfit)
        else 0) Strategy.LD = 1 := by
    simp only [amazonPayoffAgainst, hq]
    norm_num [penniesOutside]
  refine ⟨_, _, _, calculateMixedStrategy_full_mixed penniesOutside an han hne, rfl, h0,
    rfl, h1, ?_⟩
  rw [h1]
  norm_num

/-- C25 (amended): for a fully populated matrix with no pure Nash equilibrium whose two
indifference denominators are non-zero and whose two unclamped solutions lie in `[0, 1]`, the
returned profile is an equilibrium of the game restricted to HD and MD: each of the pure
strategies HD and MD of player one has expected `amazonProfit` against `flipkartMixing` equal
to (hence not greater than) `expectedPayoffs.amazon`, and each of HD and MD of player two has
expected `flipkartProfit` against `amazonMixing` equal to `expectedPayoffs.flipkart`. -/
theorem calculateMixedStrategy_support_equilibrium (cells : Strategy → Strategy → Cell)
    (hno : ∃ an, analyzeGame (Matrix.full cells) = some an ∧ an.nashEquilibria = [])
    (hdF : (cells Strategy.HD Strategy.HD).flipkartProfit
        - (cells Strategy.MD Strategy.HD).flipkartProfit
        - (cells Strategy.HD Strategy.MD).flipkartProfit
        + (cells Strategy.MD Strategy.MD).flipkartProfit ≠ 0)
    (h0F : 0 ≤ ((cells Strategy.MD Strategy.MD).flipkartProfit
          - (cells Strategy.MD Strategy.HD).flipkartProfit)
        / ((cells Strategy.HD Strategy.HD).flipkartProfit
          - (cells Strategy.MD Strategy.HD).flipkartProfit
          - (cells Strategy.HD Strategy.MD).flipkartProfit
          + (cells Strategy.MD Strategy.MD).flipkartProfit))
    (h1F : ((cells Strategy.MD Strategy.MD).flipkartProfit
          - (cells Strategy.MD Strategy.HD).flipkartProfit)
        / ((cells Strategy.HD Strategy.HD).flipkartProfit
          - (cells Strategy.MD Strategy.HD).flipkartProfit
          - (cells Strategy.HD Strategy.MD).flipkartProfit
          + (cells Strategy.MD Strategy.MD).flipkartProfit) ≤ 1)
    (hdA : (cells Strategy.HD Strategy.HD).amazonProfit
        - (cells Strategy.HD Strategy.MD).amazonProfit
        - (cells Strategy.MD Strategy.HD).amazonProfit
        + (cells Strategy.MD Strategy.MD).amazonProfit ≠ 0)
    (h0A : 0 ≤ ((cells Strategy.MD Strategy.MD).amazonProfit
          - (cells Strategy.HD Strategy.MD).amazonProfit)
        / ((cells Strategy.HD Strategy.HD).amazonProfit
          - (cells Strategy.HD Strategy.MD).amazonProfit
          - (cells Strategy.MD Strategy.HD).amazonProfit
          + (cells Strategy.MD Strategy.MD).amazonProfit))
    (h1A : ((cells Strategy.MD Strategy.MD).amazonProfit
          - (cells Strategy.HD Strategy.MD).amazonProfit)
        / ((cells Strategy.HD Strategy.HD).amazonProfit
          - (cells Strategy.HD Strategy.MD).amazonProfit
          - (cells Strategy.MD Strategy.HD).amazonProfit
          + (cells Strategy.MD Strategy.MD).amazonProfit) ≤ 1) :
    ∃ res am fm ep, calculateMixedStrategy (Matrix.full cells) = some res ∧
      res.amazonMixing = some am ∧ res.flipkartMixing = some fm ∧
      res.expectedPayoffs = some ep ∧
      amazonPayoffAgainst cells fm Strategy.HD = ep.amazon ∧
      amazonPayoffAgainst cells fm Strategy.MD = ep.amazon ∧
      flipkartPayoffAgainst cells am Strategy.HD = ep.flipkart ∧
      flipkartPayoffAgainst cells am Strategy.MD = ep.flipkart := by
  obtain ⟨an, han, hne⟩ := hno
  have hmulF := solveMix_mul_denom _ _ hdF h0F h1F
  have hmulA := solveMix_mul_denom _ _ hdA h0A h1A
  refine ⟨_, _, _, _, calculateMixedStrategy_full_mixed cells an han hne, rfl, rfl, rfl,
    ?_, ?_, ?_, ?_⟩
  · simp only [amazonPayoffAgainst, mixedStrategyOfCells, reduceCtorEq, if_true, if_false]
    linear_combination
      (1 - solveMix ((cells Strategy.MD Strategy.MD).flipkartProfit
            - (cells Strategy.MD Strategy.HD).flipkartProfit)
          ((cells Strategy.HD Strategy.HD).flipkartProfit
            - (cells Strategy.MD Strategy.HD).flipkartProfit
            - (cells Strategy.HD Strategy.MD).flipkartProfit
            + (cells Strategy.MD Strategy.MD).flipkartProfit)) * hmulA
  · simp only [amazonPayoffAgainst, mixedStrategyOfCells, reduceCtorEq, if_true, if_false]
    linear_combination
      (-solveMix ((cells Strategy.MD Strategy.MD).flipkartProfit
            - (cells Strategy.MD Strategy.HD).flipkartProfit)
          ((cells Strategy.HD Strategy.HD).flipkartProfit
            - (cells Strategy.MD Strategy.HD).flipkartProfit
            - (cells Strategy.HD Strategy.MD).flipkartProfit
            + (cells Strategy.MD Strategy.MD).flipkartProfit)) * hmulA
  · simp only [flipkartPayoffAgainst, mixedStrategyOfCells, reduceCtorEq, if_true, if_false]
    linear_combination
      (1 - solveMix ((cells Strategy.MD Strategy.MD).amazonProfit
            - (cells Strategy.HD Strategy.MD).amazonProfit)
          ((cells Strategy.HD Strategy.HD).amazonProfit
            - (cells Strategy.HD Strategy.MD).amazonProfit
            - (cells Strategy.MD Strategy.HD).amazonProfit
            + (cells Strategy.MD Strategy.MD).amazonProfit)) * hmulF
  · simp only [flipkartPayoffAgainst, mixedStrategyOfCells, reduceCtorEq, if_true, if_false]
    linear_combination
      (-solveMix ((cells Strategy.MD Strategy.MD).amazonProfit
            - (cells Strategy.HD Strategy.MD).amazonProfit)
          ((cells Strategy.HD Strategy.HD).amazonProfit
            - (cells Strategy.HD Strategy.MD).amazonProfit
            - (cells Strategy.MD Strategy.HD).amazonProfit
            + (cells Strategy.MD Strategy.MD).amazonProfit)) * hmulF

/-- C25 (instance): on `pennies` both denominators are non-zero and both unclamped solutions
are `1/2`; HD and MD earn each player exactly its expected payoff. -/
theorem calculateMixedStrategy_support_equilibrium_witness :
    (∃ an, analyzeGame (Matrix.full pennies) = some an ∧ an.nashEquilibria = []) ∧
    ∃ res am fm ep, calculateMixedStrategy (Matrix.full pennies) = some res ∧
      res.amazonMixing = some am ∧ res.flipkartMixing = some fm ∧
      res.expectedPayoffs = some ep ∧
      amazonPayoffAgainst pennies fm Strategy.HD = ep.amazon ∧
      amazonPayoffAgainst pennies fm Strategy.MD = ep.amazon ∧
      flipkartPayoffAgainst pennies am Strategy.HD = ep.flipkart ∧
      flipkartPayoffAgainst pennies am Strategy.MD = ep.flipkart :=
  ⟨analyzeGame_pennies,
    calculateMixedStrategy_support_equilibrium pennies analyzeGame_pennies
      (by norm_num [pennies]) (by norm_num [pennies]) (by norm_num [pennies])
      (by norm_num [pennies]) (by norm_num [pennies]) (by norm_num [pennies])⟩

/-- C26 (the code on a failing input): the nine rows `crashData` of period 2021 contain all
nine pairs; with multiplier 2 (above 1.2) the HD cells of player one hold
`(10000 - 2000) * 0.4 = 3200`, which is above the 20 of the MD cells and the 0 of the LD
cells. -/
theorem processDataForYear_crashData_hd_not_below :
    (∀ a b, ∃ r ∈ crashData, r.Amazon_Strategy = a ∧ r.Flipkart_Strategy = b) ∧
    (∀ r ∈ crashData, r.Festival_Year = "2021") ∧
    (∀ b, ∃ hd md ld, processDataForYear crashData 2 Strategy.HD b = some hd ∧
      processDataForYear crashData 2 Strategy.MD b = some md ∧
      processDataForYear crashData 2 Strategy.LD b = some ld ∧
      hd.amazonProfit = 3200 ∧ md.amazonProfit = 20 ∧ ld.amazonProfit = 0 ∧
      ¬ hd.amazonProfit < md.amazonProfit ∧ ¬ hd.amazonProfit < ld.amazonProfit) := by
  refine ⟨?_, ?_, ?_⟩
  · intro a b
    cases a <;> cases b <;> simp [crashData, shiftData]
  · simp [crashData, shiftData]
  · intro b
    cases b <;>
      simp [processDataForYear, crashData, shiftData, processRow, Matrix.empty,
        adjustedAmzProfit, extraAdSpend, adSpendScale, getYearMultiplier, baseFlipProfit] <;>
      norm_num

theorem findNash_tieDilemma :
    findNash (bestReplies (amazonPayoff tieDilemma)) (bestReplies (flipkartPayoff tieDilemma))
      = [{ amazon := Strategy.MD, flipkart := Strategy.MD }] := by
  have hA : bestReplies (amazonPayoff tieDilemma) = fun opp =>
      match opp with
      | Strategy.HD => [Strategy.MD]
      | Strategy.MD => [Strategy.MD]
      | Strategy.LD => [Strategy.HD, Strategy.MD] := by
    funext opp
    cases opp <;>
      simp [bestReplies, STRATEGIES, List.filter_cons, forall_strategy, amazonPayoff,
        tieDilemma] <;>
      norm_num
  have hF : bestReplies (flipkartPayoff tieDilemma) = fun opp =>
      match opp with
      | Strategy.HD => [Strategy.HD, Strategy.MD]
      | Strategy.MD => [Strategy.MD]
      | Strategy.LD => [Strategy.HD, Strategy.MD] := by
    funext opp
    cases opp <;>
      simp [bestReplies, STRATEGIES, List.filter_cons, forall_strategy, flipkartPayoff,
        tieDilemma] <;>
      norm_num
  rw [hA, hF]
  rfl

theorem amazonDominant_tieDilemma :
    (STRATEGIES.filter (fun s => decide (IsDominant (amazonPayoff tieDilemma) s))).getLast?
      = some Strategy.MD := by
  have hHD : ¬ IsDominant (amazonPayoff tieDilemma) Strategy.HD := by
    intro h
    have := h Strategy.MD (by decide) Strategy.HD
    norm_num [amazonPayoff, tieDilemma] at this
  have hMD : IsDominant (amazonPayoff tieDilemma) Strategy.MD := by
    intro s' _ t
    cases s' <;> cases t <;> norm_num [amazonPayoff, tieDilemma]
  have hLD : ¬ IsDominant (amazonPayoff tieDilemma) Strategy.LD := by
    intro h
    have := h Strategy.MD (by decide) Strategy.HD
    norm_num [amazonPayoff, tieDilemma] at this
  simp [STRATEGIES, List.filter_cons, hHD, hMD, hLD]

theorem flipkartDominant_tieDilemma :
    (STRATEGIES.filter (fun s => decide (IsDominant (flipkartPayoff tieDilemma) s))).getLast?
      = some Strategy.MD := by
  have hHD : ¬ IsDominant (flipkartPayoff tieDilemma) Strategy.HD := by
    intro h
    have := h Strategy.MD (by decide) Strategy.MD
    norm_num [flipkartPayoff, tieDilemma] at this
  have hMD : IsDominant (flipkartPayoff tieDilemma) Strategy.MD := by
    intro s' _ t
    cases s' <;> cases t <;> norm_num [flipkartPayoff, tieDilemma]
  have hLD : ¬ IsDominant (flipkartPayoff tieDilemma) Strategy.LD := by
    intro h
    have := h Strategy.MD (by decide) Strategy.MD
    norm_num [flipkartPayoff, tieDilemma] at this
  simp [STRATEGIES, List.filter_cons, hHD, hMD, hLD]

theorem socialOptimumScan_tieDilemma :
    socialOptimumScan (Matrix.full tieDilemma)
      = some (some { amazon := Strategy.HD, flipkart := Strategy.HD }) := by
  obtain ⟨so, hscan, hso⟩ := socialOptimumScan_full tieDilemma
  have hspec : socialOptimum tieDilemma
      = some { amazon := Strategy.HD, flipkart := Strategy.HD } := by
    simp [socialOptimum, rowMajorCells, List.find?_cons, jointProfit, tieDilemma]
    norm_num
  rw [hspec] at hso
  rw [hscan, Option.some.inj hso]

/-- C28 (the code on a failing input): on the matrix `tieDilemma` the analysis has the single
equilibrium (MD, MD) and both dominant strategies MD, `classifyGameStructure` returns
"Prisoner's Dilemma", and the joint profit at (MD, MD) is 10, the maximum over the nine cells:
it is not strictly less than the maximum. -/
theorem classifyGameStructure_tieDilemma :
    ∃ an, analyzeGame (Matrix.full tieDilemma) = some an ∧
      classifyGameStructure (some (Matrix.full tieDilemma)) (some an)
        = some "Prisoner\x27s Dilemma" ∧
      an.nashEquilibria.head? = some { amazon := Strategy.MD, flipkart := Strategy.MD } ∧
      jointProfit tieDilemma { amazon := Strategy.MD, flipkart := Strategy.MD } = 10 ∧
      (∀ c, jointProfit tieDilemma c ≤ 10) ∧
      ¬ (∃ c, jointProfit tieDilemma { amazon := Strategy.MD, flipkart := Strategy.MD }
            < jointProfit tieDilemma c) := by
  have hjoint : ∀ c, jointProfit tieDilemma c ≤ 10 := by
    rintro ⟨a, b⟩
    cases a <;> cases b <;> norm_num [jointProfit, tieDilemma]
  have hmd : jointProfit tieDilemma { amazon := Strategy.MD, flipkart := Strategy.MD } = 10 := by
    norm_num [jointProfit, tieDilemma]
  refine ⟨_, analyzeGame_full tieDilemma, ?_, ?_, hmd, hjoint, ?_⟩
  · rw [classifyGameStructure_full tieDilemma _ _ socialOptimumScan_tieDilemma
      { amazon := Strategy.MD, flipkart := Strategy.MD } [] findNash_tieDilemma]
    dsimp only
    rw [amazonDominant_tieDilemma, flipkartDominant_tieDilemma]
    simp
  · simp only [findNash_tieDilemma, List.head?_cons]
  · rintro ⟨c, hc⟩
    rw [hmd] at hc
    exact absurd (hjoint c) (not_le.mpr hc)

end GameTheory
